import Mathlib

/-!
Verification development for the fstock_bot price-tracking pipeline.

Shallow embedding of the repository's core modules:
* `parse_prices.py` — per-retailer JSON extractors and the keyword filter;
* `parse_shop.py`   — retailer configuration, query objects and `get_query`;
* `table.py`        — history aggregation (`create_table`) and the report
  builders (`get_text`, `get_text_month`).

Python floats are modelled as rationals (`ℚ`); Python exceptions are modelled
with `Except PyErr`; JSON data is modelled by the inductive `JVal`.
-/

namespace FStock

/-- Python exception kinds relevant to the embedded code. -/
inductive PyErr where
  | attributeError
  | zeroDivisionError
  | valueError
  | typeError
  | indexError
  | keyError
  deriving DecidableEq, Repr

/-- JSON-shaped data, as produced by `json.load` / `response.json()`. -/
inductive JVal where
  | null
  | bool (b : Bool)
  | num (q : ℚ)
  | str (s : String)
  | arr (xs : List JVal)
  | obj (kvs : List (String × JVal))

namespace JVal

/-- Lookup in a Python dict (keys are unique; first match). -/
def lookupJ : List (String × JVal) → String → Option JVal
  | [], _ => none
  | kv :: rest, k => if kv.1 = k then some kv.2 else lookupJ rest k

/-- Python truthiness of a JSON value. -/
def truthy : JVal → Bool
  | .null => false
  | .bool b => b
  | .num q => decide (q ≠ 0)
  | .str s => decide (s ≠ "")
  | .arr xs => !xs.isEmpty
  | .obj kvs => !kvs.isEmpty

end JVal

/-- `d.get(k, dflt)`: dict lookup with default; raises `AttributeError` when
`d` is not a dict. -/
def pyGet (d : JVal) (k : String) (dflt : JVal) : Except PyErr JVal :=
  match d with
  | .obj kvs => .ok ((JVal.lookupJ kvs k).getD dflt)
  | _ => .error .attributeError

/-- Accumulating digit value. -/
def natValAux (acc : ℚ) : List Char → ℚ
  | [] => acc
  | c :: cs => natValAux (acc * 10 + ((c.toNat - 48 : ℕ) : ℚ)) cs

/-- Value of a digit run. -/
def natVal (cs : List Char) : ℚ := natValAux 0 cs

/-- Whitespace stripping as Python `float` performs on its argument. -/
def pyStrip (cs : List Char) : List Char :=
  ((cs.dropWhile Char.isWhitespace).reverse.dropWhile Char.isWhitespace).reverse

/-- Optional leading sign of a Python float literal. -/
def parseSign : List Char → ℚ × List Char
  | [] => (1, [])
  | c :: r =>
    if c = '-' then (-1, r)
    else if c = '+' then (1, r)
    else (1, c :: r)

/-- Unsigned part of a Python float literal: digits with an optional decimal
point and fraction digits. -/
def parseBody (cs : List Char) : Option ℚ :=
  let ip := cs.takeWhile Char.isDigit
  let rest := cs.drop ip.length
  match rest with
  | [] => if ip = [] then none else some (natVal ip)
  | '.' :: fr =>
      if fr.all Char.isDigit ∧ (ip ≠ [] ∨ fr ≠ []) then
        some (natVal ip + natVal fr / ((10 : ℚ) ^ fr.length))
      else none
  | _ => none

/-- Model of Python `float(s)` string parsing: optional sign, digits, optional
decimal point and fraction digits (the exponent form is not used by the
repository's data and is not modelled).  Returns `none` on failure
(`ValueError`). -/
def parseFloat (s : String) : Option ℚ :=
  let sc := parseSign (pyStrip s.toList)
  (parseBody sc.2).map (fun v => sc.1 * v)

/-- Python `float(x)` on a JSON value. -/
def pyFloat : JVal → Except PyErr ℚ
  | .num q => .ok q
  | .bool b => .ok (if b then 1 else 0)
  | .str s =>
      match parseFloat s with
      | some q => .ok q
      | none => .error .valueError
  | _ => .error .typeError

/-- Python `x / n` for a JSON value and an integer literal (true division). -/
def pyDiv (v : JVal) (n : ℚ) : Except PyErr JVal :=
  match v with
  | .num q => .ok (.num (q / n))
  | .bool b => .ok (.num ((if b then (1 : ℚ) else 0) / n))
  | _ => .error .typeError

/-- Python `for x in v`: iterating a list yields its elements, a string its
characters, a dict its keys; other values raise `TypeError`. -/
def pyIter : JVal → Except PyErr (List JVal)
  | .arr xs => .ok xs
  | .str s => .ok (s.toList.map (fun c => .str (String.mk [c])))
  | .obj kvs => .ok (kvs.map (fun kv => .str kv.1))
  | _ => .error .typeError

/-- Loop body of `parse_5ka_prices`: for each product take `name`,
`prices.regular` (default `'0'`), `prices.discount`; use the discount price
when truthy, convert with `float`, and append. -/
def loop5ka : List JVal → List (JVal × ℚ) → Except PyErr (List (JVal × ℚ))
  | [], acc => .ok acc
  | product :: rest, acc =>
    match pyGet product "name" .null with
    | .error e => .error e
    | .ok name =>
      match pyGet product "prices" (.obj []) with
      | .error e => .error e
      | .ok prices1 =>
        match pyGet prices1 "regular" (.str "0") with
        | .error e => .error e
        | .ok price =>
          match pyGet product "prices" (.obj []) with
          | .error e => .error e
          | .ok prices2 =>
            match pyGet prices2 "discount" .null with
            | .error e => .error e
            | .ok discount =>
              match pyFloat (if discount.truthy then discount else price) with
              | .error e => .error e
              | .ok fp => loop5ka rest (acc ++ [(name, fp)])

/-- `parse_5ka_prices(data)` from `parse_prices.py`. -/
def parse_5ka_prices (data : JVal) : Except PyErr (List (JVal × ℚ)) :=
  match pyGet data "products" (.arr []) with
  | .error e => .error e
  | .ok items =>
    match pyIter items with
    | .error e => .error e
    | .ok xs => loop5ka xs []

/-- Loop body of `parse_dixi_prices`: cards with truthy `title` and
`priceSimple` are converted with `float` and appended. -/
def loopDixi : List JVal → List (JVal × ℚ) → Except PyErr (List (JVal × ℚ))
  | [], acc => .ok acc
  | card :: rest, acc =>
    match pyGet card "title" .null with
    | .error e => .error e
    | .ok name =>
      match pyGet card "priceSimple" .null with
      | .error e => .error e
      | .ok price =>
        if name.truthy ∧ price.truthy then
          match pyFloat price with
          | .error e => .error e
          | .ok fp => loopDixi rest (acc ++ [(name, fp)])
        else loopDixi rest acc

/-- `parse_dixi_prices(data)` from `parse_prices.py`: only a nonempty list
payload whose first element has truthy `cards` produces entries. -/
def parse_dixi_prices (data : JVal) : Except PyErr (List (JVal × ℚ)) :=
  match data with
  | .arr (d0 :: _) =>
    (match pyGet d0 "cards" .null with
     | .error e => .error e
     | .ok cards =>
       if cards.truthy then
         match pyGet d0 "cards" .null with
         | .error e => .error e
         | .ok cards2 =>
           match pyIter cards2 with
           | .error e => .error e
           | .ok xs => loopDixi xs []
       else .ok [])
  | _ => .ok []

/-- Loop body shared by `parse_magnit_prices` (price at key `price`) —
entries with truthy `name` and `price` are emitted as `float(price/100)`. -/
def loopMagnit : List JVal → List (JVal × ℚ) → Except PyErr (List (JVal × ℚ))
  | [], acc => .ok acc
  | product :: rest, acc =>
    match pyGet product "name" .null with
    | .error e => .error e
    | .ok name =>
      match pyGet product "price" .null with
      | .error e => .error e
      | .ok price =>
        if name.truthy ∧ price.truthy then
          match pyDiv price 100 with
          | .error e => .error e
          | .ok d =>
            match pyFloat d with
            | .error e => .error e
            | .ok fp => loopMagnit rest (acc ++ [(name, fp)])
        else loopMagnit rest acc

/-- `parse_magnit_prices(data)` from `parse_prices.py`. -/
def parse_magnit_prices (data : JVal) : Except PyErr (List (JVal × ℚ)) :=
  match pyGet data "items" (.arr []) with
  | .error e => .error e
  | .ok items =>
    match pyIter items with
    | .error e => .error e
    | .ok xs => loopMagnit xs []

/-- Loop body of `parse_lenta_prices`: price is `prices.price`, in minor
units. -/
def loopLenta : List JVal → List (JVal × ℚ) → Except PyErr (List (JVal × ℚ))
  | [], acc => .ok acc
  | product :: rest, acc =>
    match pyGet product "name" .null with
    | .error e => .error e
    | .ok name =>
      match pyGet product "prices" (.obj []) with
      | .error e => .error e
      | .ok prices =>
        match pyGet prices "price" .null with
        | .error e => .error e
        | .ok price =>
          if name.truthy ∧ price.truthy then
            match pyDiv price 100 with
            | .error e => .error e
            | .ok d =>
              match pyFloat d with
              | .error e => .error e
              | .ok fp => loopLenta rest (acc ++ [(name, fp)])
          else loopLenta rest acc

/-- `parse_lenta_prices(data)` from `parse_prices.py`. -/
def parse_lenta_prices (data : JVal) : Except PyErr (List (JVal × ℚ)) :=
  match pyGet data "items" (.arr []) with
  | .error e => .error e
  | .ok items =>
    match pyIter items with
    | .error e => .error e
    | .ok xs => loopLenta xs []

/-! ## `filter_for_product` (parse_prices.py) -/

/-- Python `str.lower()` restricted to the alphabets the repository uses:
ASCII `A–Z` and Cyrillic `А–Я`/`Ё`. -/
def ruLower (c : Char) : Char :=
  if 65 ≤ c.toNat ∧ c.toNat ≤ 90 then Char.ofNat (c.toNat + 32)
  else if 1040 ≤ c.toNat ∧ c.toNat ≤ 1071 then Char.ofNat (c.toNat + 32)
  else if c.toNat = 1025 then Char.ofNat 1105
  else c

/-- `str.lower()` on a whole string. -/
def pyLower (s : String) : String := String.mk (s.toList.map ruLower)

/-- Regex word character (`\w` with `re.UNICODE`), for the alphabets in use:
ASCII alphanumerics, underscore, and the Cyrillic block. -/
def isWordChar (c : Char) : Bool :=
  c.isAlphanum || c = '_' || (1024 ≤ c.toNat && c.toNat ≤ 1279)

/-- Case-insensitive literal match of `unit` at the head of `cs`; returns
the remainder on success. -/
def stripCaseless : List Char → List Char → Option (List Char)
  | [], cs => some cs
  | _ :: _, [] => none
  | u :: us, c :: cs => if ruLower c = ruLower u then stripCaseless us cs else none

/-- One attempted match of the regex `(\d+)\s*UNIT\b` at the head of `cs`
(with `re.IGNORECASE`); on success returns the replacement output
(`\1` ++ `repl`) and the remaining input.  `\d+` is greedy and no shorter
run can succeed (a digit can match neither `\s*`'s continuation nor the
unit), so no backtracking is modelled. -/
def tryUnitSub (unit repl cs : List Char) : Option (List Char × List Char) :=
  let ds := cs.takeWhile Char.isDigit
  if ds.isEmpty then none
  else
    let rest1 := (cs.drop ds.length).dropWhile Char.isWhitespace
    match stripCaseless unit rest1 with
    | none => none
    | some rest2 =>
      match rest2 with
      | [] => some (ds ++ repl, [])
      | c :: _ => if isWordChar c then none else some (ds ++ repl, rest2)

/-- `re.sub` scan: try the pattern at every position, left to right,
continuing after each replacement.  `fuel` bounds the recursion; it is
initialised with the input length, which suffices since every step consumes
at least one character. -/
def unitSubAux (unit repl : List Char) : ℕ → List Char → List Char
  | 0, cs => cs
  | _ + 1, [] => []
  | n + 1, c :: cs =>
    match tryUnitSub unit repl (c :: cs) with
    | some (out, rest) => out ++ unitSubAux unit repl n rest
    | none => c :: unitSubAux unit repl n cs

/-- `re.sub(r'(\d+)\s*UNIT\b', r'\1REPL', cs, flags=re.IGNORECASE)`. -/
def unitSub (unit repl : String) (cs : List Char) : List Char :=
  unitSubAux unit.toList repl.toList cs.length cs

/-- `preprocess_query` from `filter_for_product`: rewrites the unit spellings
`г`, `гр`, `мл`, `кг`, `шт` after a digit run (in that order, matching the
dict iteration order of the source) and lowercases the result. -/
def preprocess_query (s : String) : String :=
  let cs := s.toList
  let cs := unitSub "г" "g" cs
  let cs := unitSub "гр" "g" cs
  let cs := unitSub "мл" "ml" cs
  let cs := unitSub "кг" "kg" cs
  let cs := unitSub "шт" "шт" cs
  String.mk (cs.map ruLower)

/-- `needle` occurs at the head of `hay`. -/
def leadsWith : List Char → List Char → Bool
  | [], _ => true
  | _ :: _, [] => false
  | a :: as, b :: bs => a = b && leadsWith as bs

/-- `re.search(re.escape(needle), hay)` on already-lowercased text:
substring occurrence. -/
def hasSub (needle : List Char) : List Char → Bool
  | [] => leadsWith needle []
  | c :: cs => leadsWith needle (c :: cs) || hasSub needle cs

/-- `filter_for_product(products, positive_promt, negative_promt)` from
`parse_prices.py`.  Note the source's inner `any` iterates over
`[word, preprocess_query(word)]` with loop variable `variant` but searches
for `word` itself, so only the raw keyword is ever matched; this is
preserved here with the unused binder `_variant`. -/
def filter_for_product (products : List (String × ℚ))
    (positive_promt negative_promt : List String) : List (String × ℚ) :=
  match products with
  | [] => []
  | product :: rest =>
    let name := (preprocess_query (pyLower product.1)).toList
    let positive_match := positive_promt.all fun word =>
      [word, preprocess_query word].any fun _variant =>
        hasSub (pyLower word).toList name
    let negative_match := negative_promt.any fun word =>
      hasSub (pyLower word).toList name
    if positive_match ∧ ¬negative_match then
      product :: filter_for_product rest positive_promt negative_promt
    else
      filter_for_product rest positive_promt negative_promt

/-! ## `table.py`: history aggregation and report rendering

Dates are modelled structurally (`DateD`); the source's `strftime`/`strptime`
round-trip through the `DD-MM-YYYY` string format is treated as the identity
on well-formed dates.  CSV files are modelled by their parsed contents:
a per-retailer filtered file by its price column (`none` for a file that
`pd.read_csv` fails on), a history file by its list of `HistRow`s. -/

/-- A calendar date as stored in the history files (`DD-MM-YYYY`). -/
structure DateD where
  day : ℕ
  month : ℕ
  year : ℕ
  deriving DecidableEq, Repr

/-- One row of a per-product history file (columns: Дата, Продукт,
Минимальная цена, Средняя цена).  Also plays the role of the `Product`
dataclass, whose fields coincide. -/
structure HistRow where
  date : DateD
  product : String
  minPrice : ℚ
  middlePrice : ℚ
  deriving DecidableEq, Repr

/-- `Series.min()` of a price column (0 stands for the NaN of an empty
column, which the code never uses). -/
def qMinL : List ℚ → ℚ
  | [] => 0
  | x :: xs => xs.foldl min x

/-- `Series.mean()` of a price column. -/
def qMean (l : List ℚ) : ℚ := l.sum / (l.length : ℚ)

/-- Per-file statistics step of `create_table` (lines 116–131): a file that
raised on reading (`none`) or is empty is skipped; otherwise its minimum and
mean price are collected. -/
def fileStats : Option (List ℚ) → Option (ℚ × ℚ)
  | some (p :: ps) => some (qMinL (p :: ps), qMean (p :: ps))
  | _ => none

/-- Aggregation step of `create_table` for one basket item (lines 110–146):
over the per-retailer files with at least one row, the report row carries the
minimum of the per-file minima and the mean of the per-file means; with no
data, no row is produced. -/
def create_table_item (files : List (Option (List ℚ))) (current_date : DateD)
    (product_name : String) : Option HistRow :=
  let all_data := files.filterMap fileStats
  match all_data with
  | [] => none
  | x :: xs =>
    some { date := current_date, product := product_name,
           minPrice := qMinL ((x :: xs).map Prod.fst),
           middlePrice := qMean ((x :: xs).map Prod.snd) }

/-- History-file update of `create_table` (lines 148–159): append to an
existing file, or create the file with the single row. -/
def create_table_append (file : Option (List HistRow)) (report_data : HistRow) :
    List HistRow :=
  match file with
  | some df_existing => df_existing ++ [report_data]
  | none => [report_data]

/-- One full `create_table` pass for one basket item: compute the aggregate
row and append it when it exists, otherwise leave the history file alone. -/
def create_table_run (files : List (Option (List ℚ))) (current_date : DateD)
    (product_name : String) (hist : Option (List HistRow)) :
    Option (List HistRow) :=
  match create_table_item files current_date product_name with
  | some row => some (create_table_append hist row)
  | none => hist

/-- `DataFrame.iloc[i]` on a row list: negative indices count from the end;
out-of-range access raises `IndexError` (modelled as `none`, matched to the
caller's handling). -/
def pandas_iloc (t : List HistRow) (i : ℤ) : Option HistRow :=
  let j : ℤ := if i < 0 then i + t.length else i
  if j < 0 then none else t[j.toNat]?

/-- `get_product_from_table(table, index)` from `table.py`: `iloc` access
with `IndexError` caught and turned into `None`. -/
def get_product_from_table (table : List HistRow) (index : ℤ) : Option HistRow :=
  pandas_iloc table index

/-- Round-half-to-even on an exact rational, the rounding Python's `round`
uses (float representation error is not modelled). -/
def roundHalfEven (q : ℚ) : ℤ :=
  let f := ⌊q⌋
  let r := q - f
  if r < 1/2 then f else if 1/2 < r then f + 1
  else if f % 2 = 0 then f else f + 1

/-- Python `round(q, n)`. -/
def pyRound (q : ℚ) (n : ℕ) : ℚ :=
  let m : ℚ := (10 : ℚ) ^ n
  (roundHalfEven (q * m) : ℚ) / m

/-- Decimal-comma rendering of a price (`str(x).replace('.', ',')`); the
exact `repr` of a Python float is abstracted by `toString` on `ℚ`. -/
def commaStr (q : ℚ) : String := (toString q).replace "." ","

/-- The `["⬇️ ", "⬆️ +"][percent >= 0]` indicator. -/
def arrowStr (percent : ℚ) : String := if 0 ≤ percent then "⬆️ +" else "⬇️ "

/-- Per-product line of `get_text`. -/
def productLine (p : HistRow) (percent : ℚ) : String :=
  "<b>" ++ p.product ++ "</b>\nСредняя цена - <b>" ++
    commaStr (pyRound p.middlePrice 2) ++ " р.</b> " ++
    arrowStr percent ++ toString percent ++ "%\nMin " ++
    commaStr p.minPrice ++ " p.\n\n"

/-- Per-product line of `get_text_month`. -/
def monthLine (name : String) (middle percent minP : ℚ) : String :=
  "<b>" ++ name ++ "</b>\nСредняя цена - <b>" ++
    commaStr (pyRound middle 2) ++ " р. " ++ arrowStr percent ++
    toString percent ++ "%</b>\nMin " ++ commaStr minP ++ " p.\n\n"

/-- The `'_' * 32` separator of the summary block. -/
def sepLine : String := "________________________________"

/-- Fixed trailer of both reports. -/
def reportFooter : String :=
  "📊 Отчет подготовлен на основе цен, представленных на официальных сайтах крупнейших продуктовых сетей на дату отчета.\n<i>Магазин распродаж <a href=\"https://fstok.ru/\">FSTOK</a></i>"

/-- Basket-total block shared by both reports; the division computing
`percent_sum` sits in a `try/except ZeroDivisionError`, so a zero prior sum
leaves the percent at 0. -/
def summaryText (allP allPold : ℚ) : String :=
  let percent_sum : ℚ :=
    if allPold * (1/100) = 0 then 0
    else pyRound (allP / (allPold * (1/100)) - 100) 1
  "<b>" ++ sepLine ++ "\nСумма продуктовой корзины:</b>\n🛒 " ++
    commaStr (pyRound allP 2) ++ " р. " ++ arrowStr percent_sum ++
    commaStr percent_sum ++ "%\n" ++ sepLine ++ "\n\n"

/-- Loop body of `get_text` for one product's history table (lines 292–313).
Returns the rendered line together with the contributions to
`all_products_price` and `all_products_price_old`.  The per-item percent
computation is NOT guarded: a zero previous average raises
`ZeroDivisionError`, and when the table is empty `new_product` is `None`
and the f-string's `new_product.name` raises `AttributeError`. -/
def getTextItem (t : List HistRow) : Except PyErr (String × ℚ × ℚ) :=
  let new_product := get_product_from_table t (-1)
  let old_product := get_product_from_table t (-2)
  let pr : Except PyErr ℚ :=
    match old_product with
    | none => .ok 0
    | some o =>
      match new_product with
      | none => .error .attributeError
      | some nw =>
        if o.middlePrice * (1/100) = 0 then .error .zeroDivisionError
        else .ok (pyRound (nw.middlePrice / (o.middlePrice * (1/100)) - 100) 1)
  match pr with
  | .error e => .error e
  | .ok percent =>
    match new_product with
    | none => .error .attributeError
    | some nw =>
      .ok (productLine nw percent, nw.middlePrice,
           match old_product with | some o => o.middlePrice | none => 0)

/-- Fold of `get_text` over the history tables found in `data/report`
(iteration order of `os.listdir`, taken as given). -/
def getTextFold : List (List HistRow) → (List String × ℚ × ℚ) →
    Except PyErr (List String × ℚ × ℚ)
  | [], acc => .ok acc
  | t :: ts, acc =>
    match getTextItem t with
    | .error e => .error e
    | .ok r => getTextFold ts (acc.1 ++ [r.1], acc.2.1 + r.2.1, acc.2.2 + r.2.2)

/-- `get_text()` from `table.py`. -/
def getText (tables : List (List HistRow)) : Except PyErr String :=
  match getTextFold tables ([], 0, 0) with
  | .error e => .error e
  | .ok (texts, allP, allPold) =>
    .ok (String.join (summaryText allP allPold :: texts) ++ reportFooter)

/-- The month window of `get_text_month`: rows of the given month in the
given year. -/
def monthWindow (rows : List HistRow) (month year : ℕ) : List HistRow :=
  rows.filter fun r =>
    decide (r.date.month = month) && decide (r.date.year = year)

/-- Loop body of `get_text_month` for one history file (lines 219–242):
the label comes from the file's first row (`df['Продукт'][0]`, `KeyError`
on an empty frame), the window is the rows of the given month and year,
`_new` is the window's first row and `_old` its last, and the percent
division is unguarded.  (The window's mean and min are computed before the
`iloc` accesses in the source; they cannot raise, so they are inlined in
the result here.) -/
def getTextMonthItem (rows : List HistRow) (month year : ℕ) :
    Except PyErr (String × ℚ × ℚ) :=
  match rows.get? 0 with
  | none => .error .keyError
  | some r0 =>
    match pandas_iloc (monthWindow rows month year) 0 with
    | none => .error .indexError
    | some fst =>
      match pandas_iloc (monthWindow rows month year) (-1) with
      | none => .error .indexError
      | some lst =>
        if lst.middlePrice * (1/100) = 0 then .error .zeroDivisionError
        else
          .ok (monthLine r0.product
                 (qMean ((monthWindow rows month year).map HistRow.middlePrice))
                 (pyRound (fst.middlePrice / (lst.middlePrice * (1/100)) - 100) 1)
                 (qMinL ((monthWindow rows month year).map HistRow.minPrice)),
               fst.middlePrice, lst.middlePrice)

/-- Fold of `get_text_month` over the history files. -/
def getTextMonthFold (month year : ℕ) : List (List HistRow) →
    (List String × ℚ × ℚ) → Except PyErr (List String × ℚ × ℚ)
  | [], acc => .ok acc
  | t :: ts, acc =>
    match getTextMonthItem t month year with
    | .error e => .error e
    | .ok r =>
      getTextMonthFold month year ts (acc.1 ++ [r.1], acc.2.1 + r.2.1, acc.2.2 + r.2.2)

/-- `get_text_month(month)` from `table.py` (the year is the current year,
passed explicitly here). -/
def getTextMonth (tables : List (List HistRow)) (month year : ℕ) :
    Except PyErr String :=
  match getTextMonthFold month year tables ([], 0, 0) with
  | .error e => .error e
  | .ok (texts, allP, allPold) =>
    .ok (String.join (summaryText allP allPold :: texts) ++ reportFooter)

/-! ## `parse_shop.py`: markets, queries and `get_query`

Request parameters (`BaseQuery._params`, configuration files, search
templates) are modelled as string/dict trees (`PVal`).  The network is
modelled as a function from the retailer name to a response outcome.
Value semantics is used for parameter dicts; this is faithful for the four
retailers `get_query` instantiates (`5ka`, `magnit`, `lenta`, `dixi`),
whose search templates nest no dict inside the copied level (the
`perekrestok` template, whose shallow `.copy()` would alias a nested dict,
is not exercised by `get_query` and is outside this model). -/

/-- A request-parameter value: a string leaf or a nested dict. -/
inductive PVal where
  | str (s : String)
  | dict (d : List (String × PVal))

/-- Ordered-dict lookup. -/
def lookupP : List (String × PVal) → String → Option PVal
  | [], _ => none
  | kv :: rest, k => if kv.1 = k then some kv.2 else lookupP rest k

/-- Python `d[k] = v`: replace in place, else append (insertion order). -/
def dictSet : List (String × PVal) → String → PVal → List (String × PVal)
  | [], k, v => [(k, v)]
  | kv :: rest, k, v =>
    if kv.1 = k then (k, v) :: rest else kv :: dictSet rest k v

/-- Python `d.update(u)`. -/
def dictMerge (d : List (String × PVal)) (u : List (String × PVal)) :
    List (String × PVal) :=
  u.foldl (fun acc kv => dictSet acc kv.1 kv.2) d

/-- `BaseQuery.update_params` for one keyword argument whose value is a
dict (the only shape the code passes): merge into an existing dict value,
otherwise overwrite. -/
def update_params (ps : List (String × PVal)) (k : String)
    (v : List (String × PVal)) : List (String × PVal) :=
  match lookupP ps k with
  | some (.dict d) => dictSet ps k (.dict (dictMerge d v))
  | _ => dictSet ps k (.dict v)

/-- `Market._get_search_param`. -/
def get_search_param (name : String) : List (String × PVal) :=
  if name = "5ka" then [("params", .dict [("q", .str "query")])]
  else if name = "perekrestok" then
    [("json", .dict [("filter", .dict [("textQuery", .str "query")])])]
  else if name = "magnit" then [("json", .dict [("term", .str "query")])]
  else if name = "dixi" then [("params", .dict [("q", .str "query")])]
  else if name = "lenta" then [("json", .dict [("query", .str "query")])]
  else [("params", .dict [("q", .str "query")])]

/-- Error taxonomy of `parse_shop.py` plus the uncaught Python errors the
code can raise.  `configError` and `requestError` are the `MarketError`
subclasses. -/
inductive MErr where
  | configError
  | requestError
  | pyKeyError
  | pyAttrError
  | pyIndexError
  deriving DecidableEq, Repr

/-- `isinstance(e, MarketError)`. -/
def isMarketError : MErr → Bool
  | .configError => true
  | .requestError => true
  | _ => false

/-- A `Market` instance: name, the underlying query object's `_params`,
and the search template. -/
structure MarketS where
  name : String
  qparams : List (String × PVal)
  search_param : List (String × PVal)

/-- The configuration directory: parsed contents per filename, `none` when
the file is missing or not valid JSON. -/
structure ConfigS where
  files : String → Option (List (String × PVal))

/-- `Config.load_config`: raises `ConfigError` on a missing/invalid file. -/
def load_config (c : ConfigS) (filename : String) :
    Except MErr (List (String × PVal)) :=
  match c.files filename with
  | some d => .ok d
  | none => .error .configError

/-- `Market.__init__` / `Market._create_query`: load the retailer's config
and the proxies, build the query object
(`query_class(**config_data, proxies=proxies)`) and the search template. -/
def createMarket (c : ConfigS) (name : String) : Except MErr MarketS :=
  match load_config c (name ++ ".json") with
  | .error e => .error e
  | .ok config_data =>
    match load_config c "proxies.json" with
    | .error e => .error e
    | .ok proxies =>
      .ok { name := name,
            qparams := config_data ++ [("proxies", .dict proxies)],
            search_param := get_search_param name }

/-- A response body: JSON, or text that `response.json()` rejects. -/
inductive RespBody where
  | jsonB (j : JVal)
  | textB (s : String)

/-- Outcome of one network request to a retailer: a transport error
(raised as `RequestError` by `execute`) or an HTTP response. -/
inductive RResult where
  | netError
  | httpResp (status : ℕ) (body : RespBody)

/-- The final leg of `Market.search`: `execute` performs the request with
the (already updated) `_params`; a non-200 status raises `RequestError`. -/
def doRequest (m : MarketS) (resp : String → RResult) :
    Except MErr (RespBody × MarketS) :=
  match resp m.name with
  | .netError => .error .requestError
  | .httpResp status body =>
    if status = 200 then .ok (body, m) else .error .requestError

/-- The non-dixi parameter fill: every subkey of a nested dict, or the
value itself, is replaced by the query string (operating on the shallow
copy `param_dict`). -/
def setAllQ (d : List (String × PVal)) (query : String) : List (String × PVal) :=
  d.map fun kv =>
    match kv.2 with
    | .dict inner => (kv.1, .dict (inner.map fun skv => (skv.1, .str query)))
    | _ => (kv.1, .str query)

/-- The dict literal `Market.search` merges into `_params['params']` for
dixi. -/
def dixiUpdate (query : String) : List (String × PVal) :=
  [("block", .str "product-list"), ("sid", .str "0"), ("perPage", .str "30"),
   ("page", .str "1"), ("searchQuery", .str query), ("getFullData", .str ""),
   ("gl_filter", .str "")]

/-- `Market.search(query)`.  For dixi the code mutates
`self.query._params['params']` directly (raising `KeyError`/
`AttributeError` when that slot is absent or not a dict) and calls
`execute()`; otherwise it fills a copy of the first search-template entry
and passes it to `execute`, whose `update_params` merges it into the stored
`_params`.  The returned market carries the mutated `_params`. -/
def marketSearch (m : MarketS) (resp : String → RResult) (query : String) :
    Except MErr (RespBody × MarketS) :=
  match m.search_param with
  | [] => .error .pyIndexError
  | (param_key, pv) :: _ =>
    if m.name = "dixi" then
      match lookupP m.qparams "params" with
      | some (.dict d) =>
        let ps := dictSet m.qparams "params" (.dict (dictMerge d (dixiUpdate query)))
        doRequest { m with qparams := ps } resp
      | some _ => .error .pyAttrError
      | none => .error .pyKeyError
    else
      match pv with
      | .dict d0 =>
        let param_dict := setAllQ d0 query
        let ps := update_params m.qparams param_key param_dict
        doRequest { m with qparams := ps } resp
      | _ => .error .pyAttrError

/-- The retailer roster of `get_query`, in construction order. -/
def marketRoster : List String := ["5ka", "magnit", "lenta", "dixi"]

/-- Eager construction of the `markets` list literal: the first failing
constructor aborts the whole expression. -/
def buildAll (c : ConfigS) : List String → Except MErr (List MarketS)
  | [] => .ok []
  | n :: ns =>
    match createMarket c n with
    | .error e => .error e
    | .ok m =>
      match buildAll c ns with
      | .error e => .error e
      | .ok ms => .ok (m :: ms)

/-- The retailer loop of `get_query` (lines 306–326): `MarketError`s are
caught and the retailer skipped; `json.JSONDecodeError` from a text body is
caught and the write skipped; any other exception propagates, ending the
loop with the writes made so far. -/
def runMarkets (resp : String → RResult) (query : String) :
    List MarketS → List (String × JVal) × Option MErr
  | [] => ([], none)
  | m :: ms =>
    match marketSearch m resp query with
    | .error e =>
      if isMarketError e then runMarkets resp query ms else ([], some e)
    | .ok (body, _) =>
      match body with
      | .jsonB j =>
        let r := runMarkets resp query ms
        ((m.name, j) :: r.1, r.2)
      | .textB _ => runMarkets resp query ms

/-- `get_query(search_query)` from `parse_shop.py`: returns the payload
files written (retailer name and JSON body) and the exception the call
raised, if any. -/
def get_query (c : ConfigS) (resp : String → RResult) (search_query : String) :
    List (String × JVal) × Option MErr :=
  match buildAll c marketRoster with
  | .error e => ([], some e)
  | .ok markets => runMarkets resp search_query markets

/-! ## Payload sign condition (for the price-invariant claims)

A payload is *non-negative* when every numeric leaf is `≥ 0` and every
string leaf that Python `float` would accept denotes a value `≥ 0`. -/

mutual

/-- Non-negativity of a JSON value, leafwise. -/
def nonnegJ : JVal → Bool
  | .null => true
  | .bool _ => true
  | .num q => decide (0 ≤ q)
  | .str s =>
    match parseFloat s with
    | some q => decide (0 ≤ q)
    | none => true
  | .arr xs => nonnegL xs
  | .obj kvs => nonnegKV kvs

/-- Non-negativity of every element of a JSON array. -/
def nonnegL : List JVal → Bool
  | [] => true
  | x :: xs => nonnegJ x && nonnegL xs

/-- Non-negativity of every value of a JSON object. -/
def nonnegKV : List (String × JVal) → Bool
  | [] => true
  | kv :: kvs => nonnegJ kv.2 && nonnegKV kvs

end

/-- `x` is not a Python dict. -/
def notObj : JVal → Bool
  | .obj _ => false
  | _ => true

/-- Rows of a history file bearing a given date. -/
def countDate (d : DateD) (l : List HistRow) : ℕ :=
  (l.filter fun r => decide (r.date = d)).length

/-- The payload file `get_query` writes for retailer `n` under response
assignment `resp`: present exactly for a 200 response with a JSON body. -/
def goodWrite (resp : String → RResult) (n : String) : Option (String × JVal) :=
  match resp n with
  | .httpResp s (.jsonB j) => if s = 200 then some (n, j) else none
  | _ => none

/-- All payload files a fully-configured `get_query` run writes. -/
def expectedWrites (resp : String → RResult) : List (String × JVal) :=
  marketRoster.filterMap (goodWrite resp)

/-- Every retailer of the roster constructs its `Market` successfully under
configuration `c`. -/
def marketsOk (c : ConfigS) : Bool :=
  marketRoster.all fun n =>
    match createMarket c n with
    | .ok _ => true
    | .error _ => false

/-- The constructed dixi market has a dict at `_params['params']` (the slot
`Market.search` mutates directly). -/
def dixiOk (c : ConfigS) : Bool :=
  match createMarket c "dixi" with
  | .ok m =>
    match lookupP m.qparams "params" with
    | some (.dict _) => true
    | _ => false
  | .error _ => false

/-- The first entry of a search template is a dict value. -/
def headDict (l : List (String × PVal)) : Bool :=
  match l with
  | [] => false
  | (_, v) :: _ =>
    match v with
    | .dict _ => true
    | _ => false

/-- The parameter set has a dict at key `params` (the slot the dixi branch
of `Market.search` mutates directly). -/
def paramsDict (ps : List (String × PVal)) : Bool :=
  match lookupP ps "params" with
  | some (.dict _) => true
  | _ => false

/-- Shape condition under which `Market.search` reaches the network call:
a search template headed by a dict entry, and for dixi a dict at
`_params['params']`. -/
def searchOK (m : MarketS) : Bool :=
  headDict m.search_param &&
    (if m.name = "dixi" then paramsDict m.qparams else true)

/-- The retailers of the roster with, for dixi, the shape condition its
`Market.search` branch needs on the stored parameters. -/
def goodName (n : String) (p : List (String × PVal)) : Prop :=
  n = "5ka" ∨ n = "magnit" ∨ n = "lenta" ∨
    (n = "dixi" ∧ ∃ d, lookupP p "params" = some (.dict d))

/-- The query slot of the parameters a search for retailer `name` sends:
outer key and inner key. -/
def qSlot (name : String) : String × String :=
  if name = "5ka" then ("params", "q")
  else if name = "magnit" then ("json", "term")
  else if name = "lenta" then ("json", "query")
  else ("params", "searchQuery")

/-- Value of the query slot inside a parameter dict. -/
def slotLookup (name : String) (ps : List (String × PVal)) : Option PVal :=
  match lookupP ps (qSlot name).1 with
  | some (.dict d) => lookupP d (qSlot name).2
  | _ => none

/-! ### Concrete instances used by witnesses and counterexamples -/

/-- Per-retailer filtered files realizing the spec's aggregation example:
per-file averages `[10, 12, 11]` and minima `[9, 9, 10]`. -/
def exFiles7 : List (Option (List ℚ)) := [some [9, 11], some [9, 15], some [10, 12]]

/-- The aggregate row of `exFiles7`. -/
def exRow7 : HistRow := ⟨⟨11, 10, 2025⟩, "🧈 Сливочное масло, 180гр", 9, 11⟩

/-- A configuration set under which the magnit files are missing and the
other three retailers are fully configured. -/
def cfgBadC5 : ConfigS :=
  ⟨fun fn =>
    if fn = "magnit.json" then none
    else if fn = "dixi.json" then some [("params", .dict [])]
    else some []⟩

/-- A fully-working configuration set. -/
def cfgGoodC5 : ConfigS :=
  ⟨fun fn => if fn = "dixi.json" then some [("params", .dict [])] else some []⟩

/-- A network where every retailer answers 200 with a JSON body. -/
def respOK5 : String → RResult := fun _ => .httpResp 200 (.jsonB (.obj []))

/-- A fully-working configuration set (monthly twin of `cfgGoodC5`). -/
def cfg6 : ConfigS :=
  ⟨fun fn => if fn = "dixi.json" then some [("params", .dict [])] else some []⟩

/-- A network where magnit fails at transport level, lenta returns non-JSON
text, and the other two return JSON. -/
def resp6 : String → RResult := fun n =>
  if n = "magnit" then .netError
  else if n = "lenta" then .httpResp 200 (.textB "<html>")
  else .httpResp 200 (.jsonB (.obj [("items", .arr [])]))

/-- A magnit market whose query object holds only a url parameter. -/
def m8 : MarketS := ⟨"magnit", [("url", .str "u")], get_search_param "magnit"⟩

/-- The network used in the frame-effect counterexample. -/
def resp8 : String → RResult := fun _ => .httpResp 200 (.jsonB (.obj []))

/-! ## Theorems -/

/-- C10: `filter_for_product` returns an order-preserving sublist of its
input — every retained pair is an element of the input, verbatim, and
relative order is preserved. -/
theorem claim_C10_filter_sublist (products : List (String × ℚ))
    (pos neg : List String) :
    (filter_for_product products pos neg).Sublist products := by
  induction products with
  | nil => simp [filter_for_product]
  | cons p ps ih =>
    rw [filter_for_product]
    split
    · exact ih.cons₂ p
    · exact ih.cons p

/-- C2 (failing input): `filter_for_product` does not normalize the
keywords — the source's inner `any` binds `variant` but searches for `word`
— so the positive keyword `"180г"` fails against a product named
`"масло 180г"` (whose name IS normalized to `"масло 180g"`), while the
keyword `"180g"` retains it: replacing the keyword's unit suffix changes
the outcome, contradicting the claim. -/
theorem claim_C2_keyword_normalization_bug :
    filter_for_product [("масло 180г", 100)] ["180г"] [] = [] ∧
    filter_for_product [("масло 180г", 100)] ["180g"] [] =
      [("масло 180г", 100)] :=
  ⟨rfl, rfl⟩

/-- The aggregate row, when present, bears the aggregation run's current
date. -/
theorem create_table_item_date {files : List (Option (List ℚ))} {d : DateD}
    {p : String} {row : HistRow}
    (h : create_table_item files d p = some row) : row.date = d := by
  unfold create_table_item at h
  rcases hfm : files.filterMap fileStats with _ | ⟨x, xs⟩ <;> rw [hfm] at h
  · simp at h
  · simp at h
    rw [← h]

/-- C9: appending a history row preserves all prior rows and adds exactly
one row at the end; an absent file is created with that row as its only
entry; and no deduplication happens — two aggregation runs for the same
date add two rows bearing that date. -/
theorem claim_C9_append_only (rs : List HistRow) (r : HistRow)
    (files : List (Option (List ℚ))) (d : DateD) (p : String)
    (hist : Option (List HistRow)) (row : HistRow)
    (h : create_table_item files d p = some row) :
    create_table_append (some rs) r = rs ++ [r] ∧
    create_table_append none r = [r] ∧
    ∃ l, create_table_run files d p (create_table_run files d p hist) = some l ∧
      countDate d (hist.getD []) + 2 ≤ countDate d l := by
  refine ⟨rfl, rfl, ?_⟩
  have hdate : row.date = d := create_table_item_date h
  refine ⟨create_table_append (some (create_table_append hist row)) row, ?_, ?_⟩
  · simp [create_table_run, h]
  · cases hist with
    | none => simp [create_table_append, countDate, hdate]
    | some l0 => simp [create_table_append, countDate, List.filter_append, hdate]

/-- C9 witness: a single-retailer file with one price, run twice on an
absent history file. -/
theorem claim_C9_append_only_witness :
    create_table_append (some [exRow7]) exRow7 = [exRow7] ++ [exRow7] ∧
    create_table_append none exRow7 = [exRow7] ∧
    ∃ l, create_table_run exFiles7 ⟨11, 10, 2025⟩ "🧈 Сливочное масло, 180гр"
        (create_table_run exFiles7 ⟨11, 10, 2025⟩ "🧈 Сливочное масло, 180гр" none) =
        some l ∧
      countDate ⟨11, 10, 2025⟩ ((none : Option (List HistRow)).getD []) + 2 ≤
        countDate ⟨11, 10, 2025⟩ l :=
  claim_C9_append_only [exRow7] exRow7 exFiles7 ⟨11, 10, 2025⟩
    "🧈 Сливочное масло, 180гр" none exRow7 (by
      simp [create_table_item, exFiles7, fileStats, qMinL, qMean, exRow7]
      norm_num)

/-- The per-file minima collected by `create_table` are the `min?` of each
file with at least one row. -/
theorem mins_corr (files : List (Option (List ℚ))) :
    files.filterMap (fun f => f.bind List.min?) =
      (files.filterMap fileStats).map Prod.fst := by
  induction files with
  | nil => rfl
  | cons f fs ih =>
    cases f with
    | none =>
      rw [List.filterMap_cons_none rfl, List.filterMap_cons_none rfl, ih]
    | some l =>
      cases l with
      | nil =>
        rw [List.filterMap_cons_none rfl, List.filterMap_cons_none rfl, ih]
      | cons p ps =>
        show qMinL (p :: ps) :: fs.filterMap (fun f => f.bind List.min?) =
          qMinL (p :: ps) :: (fs.filterMap fileStats).map Prod.fst
        rw [ih]

/-- The per-file means collected by `create_table` are the mean of each file
with at least one row. -/
theorem avgs_corr (files : List (Option (List ℚ))) :
    files.filterMap (fun f => f.bind fun l =>
        if l.isEmpty then none else some (l.sum / (l.length : ℚ))) =
      (files.filterMap fileStats).map Prod.snd := by
  induction files with
  | nil => rfl
  | cons f fs ih =>
    cases f with
    | none =>
      rw [List.filterMap_cons_none rfl, List.filterMap_cons_none rfl, ih]
    | some l =>
      cases l with
      | nil =>
        rw [List.filterMap_cons_none rfl, List.filterMap_cons_none rfl, ih]
      | cons p ps =>
        show qMean (p :: ps) :: (fs.filterMap fun f => f.bind fun l =>
            if l.isEmpty then none else some (l.sum / (l.length : ℚ))) =
          qMean (p :: ps) :: (fs.filterMap fileStats).map Prod.snd
        rw [ih]

/-- C7: the aggregation step emits no row exactly when no per-retailer file
has a row; when it emits a row, the row bears the current date, the minimum
of the per-file minima and the arithmetic mean of the per-file means. -/
theorem claim_C7_aggregation (files : List (Option (List ℚ))) (d : DateD)
    (p : String) :
    (create_table_item files d p = none ↔
      files.filterMap (fun f => f.bind List.min?) = []) ∧
    (∀ row, create_table_item files d p = some row →
      row.date = d ∧ row.product = p ∧
      (files.filterMap (fun f => f.bind List.min?)).min? = some row.minPrice ∧
      row.middlePrice =
        (files.filterMap (fun f => f.bind fun l =>
          if l.isEmpty then none else some (l.sum / (l.length : ℚ)))).sum /
        ((files.filterMap (fun f => f.bind fun l =>
          if l.isEmpty then none else some (l.sum / (l.length : ℚ)))).length : ℚ)) := by
  rw [mins_corr, avgs_corr]
  constructor
  · unfold create_table_item
    cases hfm : files.filterMap fileStats with
    | nil => simp
    | cons x xs => simp
  · intro row h
    unfold create_table_item at h
    cases hfm : files.filterMap fileStats with
    | nil => rw [hfm] at h; simp at h
    | cons x xs =>
      rw [hfm] at h
      simp only [Option.some.injEq] at h
      subst h
      refine ⟨rfl, rfl, ?_, ?_⟩
      · simp [List.min?, qMinL]
      · simp [qMean]

/-- C7 witness: per-file averages `[10, 12, 11]` and minima `[9, 9, 10]`
yield the row with minimum 9 and average 11. -/
theorem claim_C7_aggregation_witness :
    exRow7.date = ⟨11, 10, 2025⟩ ∧
    exRow7.product = "🧈 Сливочное масло, 180гр" ∧
    (exFiles7.filterMap (fun f => f.bind List.min?)).min? = some exRow7.minPrice ∧
    exRow7.middlePrice =
      (exFiles7.filterMap (fun f => f.bind fun l =>
        if l.isEmpty then none else some (l.sum / (l.length : ℚ)))).sum /
      ((exFiles7.filterMap (fun f => f.bind fun l =>
        if l.isEmpty then none else some (l.sum / (l.length : ℚ)))).length : ℚ) :=
  (claim_C7_aggregation exFiles7 ⟨11, 10, 2025⟩ "🧈 Сливочное масло, 180гр").2
    exRow7 (by
      simp [create_table_item, exFiles7, fileStats, qMinL, qMean, exRow7]
      norm_num)

/-- C3 (counterexample): the extractors are not total — a 5ka entry whose
regular price is a non-numeric string makes `float` raise `ValueError`,
failing the whole batch instead of skipping the entry. -/
theorem claim_C3_extractor_raises :
    parse_5ka_prices
      (.obj [("products", .arr [.obj [("prices", .obj [("regular", .str "abc")])]])]) =
      .error .valueError := by
  rfl

/-- C3 (amended): a payload lacking the expected top-level key does yield
the empty list without raising: a dict without `products` for 5ka, a dict
without `items` for magnit and lenta, and for dixi any non-list, the empty
list, or a first element without truthy `cards`. -/
theorem claim_C3_missing_key_empty :
    (∀ kvs, JVal.lookupJ kvs "products" = none →
      parse_5ka_prices (.obj kvs) = .ok []) ∧
    (∀ kvs, JVal.lookupJ kvs "items" = none →
      parse_magnit_prices (.obj kvs) = .ok []) ∧
    (∀ kvs, JVal.lookupJ kvs "items" = none →
      parse_lenta_prices (.obj kvs) = .ok []) ∧
    (∀ kvs, parse_dixi_prices (.obj kvs) = .ok []) ∧
    parse_dixi_prices (.arr []) = .ok [] ∧
    (∀ kvs rest, JVal.lookupJ kvs "cards" = none →
      parse_dixi_prices (.arr (.obj kvs :: rest)) = .ok []) := by
  refine ⟨fun kvs h => ?_, fun kvs h => ?_, fun kvs h => ?_,
    fun kvs => rfl, rfl, fun kvs rest h => ?_⟩
  · simp [parse_5ka_prices, pyGet, h, pyIter, loop5ka]
  · simp [parse_magnit_prices, pyGet, h, pyIter, loopMagnit]
  · simp [parse_lenta_prices, pyGet, h, pyIter, loopLenta]
  · simp [parse_dixi_prices, pyGet, h, JVal.truthy]

/-- C3 witness: concrete payloads under the amended statement. -/
theorem claim_C3_missing_key_empty_witness :
    parse_5ka_prices (.obj [("foo", .null)]) = .ok [] ∧
    parse_magnit_prices (.obj [("foo", .null)]) = .ok [] ∧
    parse_dixi_prices (.arr [.obj [("foo", .null)], .null]) = .ok [] :=
  ⟨claim_C3_missing_key_empty.1 [("foo", .null)] rfl,
   claim_C3_missing_key_empty.2.1 [("foo", .null)] rfl,
   claim_C3_missing_key_empty.2.2.2.2.2 [("foo", .null)] [.null] rfl⟩

/-- Elements of a non-negative array are non-negative values. -/
theorem nonnegL_mem {xs : List JVal} {x : JVal} (h : nonnegL xs = true)
    (hx : x ∈ xs) : nonnegJ x = true := by
  induction xs with
  | nil => cases hx
  | cons y ys ih =>
    rw [nonnegL] at h
    simp only [Bool.and_eq_true] at h
    rcases List.mem_cons.1 hx with rfl | hx'
    · exact h.1
    · exact ih h.2 hx'

/-- Values of a non-negative object are non-negative. -/
theorem lookupJ_nonneg {kvs : List (String × JVal)} {k : String} {v : JVal}
    (h : nonnegKV kvs = true) (he : JVal.lookupJ kvs k = some v) :
    nonnegJ v = true := by
  induction kvs with
  | nil => cases he
  | cons kv rest ih =>
    rw [nonnegKV] at h
    simp only [Bool.and_eq_true] at h
    rw [JVal.lookupJ] at he
    by_cases hk : kv.1 = k
    · rw [if_pos hk] at he
      cases he
      exact h.1
    · rw [if_neg hk] at he
      exact ih h.2 he

/-- `get` on a non-dict raises `AttributeError`. -/
theorem pyGet_notObj {x : JVal} {k : String} {dflt : JVal}
    (h : notObj x = true) : pyGet x k dflt = .error .attributeError := by
  cases x <;> simp_all [notObj, pyGet]

/-- A successful `get` from a non-negative dict with a non-negative default
yields a non-negative value. -/
theorem pyGet_nonneg {d : JVal} {k : String} {dflt v : JVal}
    (hd : nonnegJ d = true) (hdf : nonnegJ dflt = true)
    (h : pyGet d k dflt = .ok v) : nonnegJ v = true := by
  cases d with
  | obj kvs =>
    rw [pyGet] at h
    cases h
    rw [nonnegJ] at hd
    cases hl : JVal.lookupJ kvs k with
    | none => exact hdf
    | some w => exact lookupJ_nonneg hd hl
  | null => cases h
  | bool b => cases h
  | num q => cases h
  | str s => cases h
  | arr xs => cases h

/-- `float` of a non-negative value is non-negative. -/
theorem pyFloat_nonneg {v : JVal} {q : ℚ} (hv : nonnegJ v = true)
    (h : pyFloat v = .ok q) : 0 ≤ q := by
  cases v with
  | num q0 =>
    rw [pyFloat] at h
    cases h
    rw [nonnegJ] at hv
    exact of_decide_eq_true hv
  | bool b =>
    rw [pyFloat] at h
    cases h
    cases b <;> norm_num
  | str s =>
    rw [nonnegJ] at hv
    rw [pyFloat] at h
    cases hp : parseFloat s with
    | none => rw [hp] at h; cases h
    | some q0 =>
      rw [hp] at h
      cases h
      rw [hp] at hv
      exact of_decide_eq_true hv
  | null => cases h
  | arr xs => cases h
  | obj kvs => cases h

/-- Dividing a non-negative value by 100 stays non-negative. -/
theorem pyDiv100_nonneg {v w : JVal} (hv : nonnegJ v = true)
    (h : pyDiv v 100 = .ok w) : nonnegJ w = true := by
  cases v with
  | num q0 =>
    rw [pyDiv] at h
    cases h
    rw [nonnegJ] at hv ⊢
    rw [decide_eq_true_eq] at hv ⊢
    positivity
  | bool b =>
    rw [pyDiv] at h
    cases h
    rw [nonnegJ]
    rw [decide_eq_true_eq]
    cases b <;> norm_num
  | null => cases h
  | str s => cases h
  | arr xs => cases h
  | obj kvs => cases h

/-- Digit accumulation never goes negative. -/
theorem natValAux_nonneg (cs : List Char) : ∀ acc : ℚ, 0 ≤ acc →
    0 ≤ natValAux acc cs := by
  induction cs with
  | nil => intro acc h; simpa [natValAux] using h
  | cons c cs ih =>
    intro acc h
    rw [natValAux]
    exact ih _ (by positivity)

/-- A digit run denotes a non-negative value. -/
theorem natVal_nonneg (cs : List Char) : 0 ≤ natVal cs :=
  natValAux_nonneg cs 0 le_rfl

/-- The unsigned part of a float literal is non-negative. -/
theorem parseBody_nonneg {cs : List Char} {v : ℚ} (h : parseBody cs = some v) :
    0 ≤ v := by
  rw [parseBody] at h
  split at h
  · split at h
    · cases h
    · cases h
      exact natVal_nonneg _
  · split at h
    · cases h
      exact add_nonneg (natVal_nonneg _)
        (div_nonneg (natVal_nonneg _) (by positivity))
    · cases h
  · cases h

/-- Without a leading minus, the sign factor is 1. -/
theorem parseSign_pos {cs : List Char} (hs : ∀ r, cs ≠ '-' :: r) :
    (parseSign cs).1 = 1 := by
  cases cs with
  | nil => rfl
  | cons c r =>
    rw [parseSign]
    by_cases h1 : c = '-'
    · subst h1; exact absurd rfl (hs r)
    · rw [if_neg h1]
      by_cases h2 : c = '+'
      · rw [if_pos h2]
      · rw [if_neg h2]

/-- `float` parsing of a string that does not start with a minus sign
(after stripping) yields a non-negative value. -/
theorem parseFloat_nonneg {s : String} {q : ℚ}
    (hs : ∀ r, pyStrip s.toList ≠ '-' :: r) (h : parseFloat s = some q) :
    0 ≤ q := by
  rw [parseFloat] at h
  cases hb : parseBody (parseSign (pyStrip s.toList)).2 with
  | none => rw [hb] at h; cases h
  | some v =>
    rw [hb] at h
    cases h
    show 0 ≤ (parseSign (pyStrip s.toList)).1 * v
    rw [parseSign_pos hs, one_mul]
    exact parseBody_nonneg hb

/-- The default price string `'0'` of the 5ka extractor is non-negative. -/
theorem nonneg_str0 : nonnegJ (.str "0") = true := by
  rw [nonnegJ]
  cases hp : parseFloat "0" with
  | none => rfl
  | some q =>
    rw [decide_eq_true_eq]
    refine parseFloat_nonneg ?_ hp
    intro r hr
    rw [show pyStrip "0".toList = ['0'] from rfl] at hr
    cases hr

/-- Elements produced by iterating a non-negative value are non-negative or
non-dicts (strings). -/
theorem pyIter_elems {d : JVal} {xs : List JVal} (hd : nonnegJ d = true)
    (h : pyIter d = .ok xs) :
    ∀ x ∈ xs, nonnegJ x = true ∨ notObj x = true := by
  cases d with
  | arr ys =>
    rw [pyIter] at h
    cases h
    rw [nonnegJ] at hd
    exact fun x hx => Or.inl (nonnegL_mem hd hx)
  | str s =>
    rw [pyIter] at h
    cases h
    intro x hx
    rcases List.mem_map.1 hx with ⟨c, _, rfl⟩
    exact Or.inr rfl
  | obj kvs =>
    rw [pyIter] at h
    cases h
    intro x hx
    rcases List.mem_map.1 hx with ⟨kv, _, rfl⟩
    exact Or.inr rfl
  | null => cases h
  | bool b => cases h
  | num q => cases h

/-- Appending a pair with a non-negative price preserves the accumulator
invariant. -/
theorem acc_append_nonneg {acc : List (JVal × ℚ)} {name : JVal} {fp : ℚ}
    (hacc : ∀ p ∈ acc, 0 ≤ p.2) (hfp : 0 ≤ fp) :
    ∀ p ∈ acc ++ [(name, fp)], 0 ≤ p.2 := by
  intro p hp
  rcases List.mem_append.1 hp with hp' | hp'
  · exact hacc p hp'
  · rcases List.mem_singleton.1 hp' with rfl
    exact hfp

/-- The 5ka extraction loop only emits non-negative prices from
non-negative entries. -/
theorem loop5ka_nonneg : ∀ (xs : List JVal) (acc : List (JVal × ℚ)),
    (∀ x ∈ xs, nonnegJ x = true ∨ notObj x = true) →
    (∀ p ∈ acc, 0 ≤ p.2) →
    ∀ l, loop5ka xs acc = .ok l → ∀ p ∈ l, 0 ≤ p.2 := by
  intro xs
  induction xs with
  | nil =>
    intro acc _ hacc l h
    rw [loop5ka] at h
    cases h
    exact hacc
  | cons x rest ih =>
    intro acc hmem hacc l h
    rw [loop5ka] at h
    rcases hmem x (List.mem_cons_self x rest) with hx | hx
    · cases h1 : pyGet x "name" JVal.null with
      | error e => simp only [h1] at h; cases h
      | ok name =>
        simp only [h1] at h
        cases h2 : pyGet x "prices" (.obj []) with
        | error e => simp only [h2] at h; cases h
        | ok prices1 =>
          simp only [h2] at h
          cases h3 : pyGet prices1 "regular" (.str "0") with
          | error e => simp only [h3] at h; cases h
          | ok price =>
            simp only [h3] at h
            cases h5 : pyGet prices1 "discount" JVal.null with
            | error e => simp only [h5] at h; cases h
            | ok discount =>
              simp only [h5] at h
              cases h6 : pyFloat (if discount.truthy then discount else price) with
              | error e => simp only [h6] at h; cases h
              | ok fp =>
                simp only [h6] at h
                have hpr1 : nonnegJ prices1 = true :=
                  pyGet_nonneg hx (by rw [nonnegJ, nonnegKV]) h2
                have hprice : nonnegJ price = true :=
                  pyGet_nonneg hpr1 nonneg_str0 h3
                have hdisc : nonnegJ discount = true :=
                  pyGet_nonneg hpr1 (by rw [nonnegJ]) h5
                have hch : nonnegJ (if discount.truthy then discount else price) = true := by
                  split
                  · exact hdisc
                  · exact hprice
                have hfp : 0 ≤ fp := pyFloat_nonneg hch h6
                exact ih (acc ++ [(name, fp)])
                  (fun y hy => hmem y (List.mem_cons_of_mem x hy))
                  (acc_append_nonneg hacc hfp) l h
    · rw [pyGet_notObj hx] at h
      cases h

/-- The dixi extraction loop only emits non-negative prices from
non-negative entries. -/
theorem loopDixi_nonneg : ∀ (xs : List JVal) (acc : List (JVal × ℚ)),
    (∀ x ∈ xs, nonnegJ x = true ∨ notObj x = true) →
    (∀ p ∈ acc, 0 ≤ p.2) →
    ∀ l, loopDixi xs acc = .ok l → ∀ p ∈ l, 0 ≤ p.2 := by
  intro xs
  induction xs with
  | nil =>
    intro acc _ hacc l h
    rw [loopDixi] at h
    cases h
    exact hacc
  | cons x rest ih =>
    intro acc hmem hacc l h
    rw [loopDixi] at h
    rcases hmem x (List.mem_cons_self x rest) with hx | hx
    · cases h1 : pyGet x "title" JVal.null with
      | error e => simp only [h1] at h; cases h
      | ok name =>
        simp only [h1] at h
        cases h2 : pyGet x "priceSimple" JVal.null with
        | error e => simp only [h2] at h; cases h
        | ok price =>
          simp only [h2] at h
          have hprice : nonnegJ price = true :=
            pyGet_nonneg hx (by rw [nonnegJ]) h2
          split at h
          · cases h6 : pyFloat price with
            | error e => simp only [h6] at h; cases h
            | ok fp =>
              simp only [h6] at h
              have hfp : 0 ≤ fp := pyFloat_nonneg hprice h6
              exact ih (acc ++ [(name, fp)])
                (fun y hy => hmem y (List.mem_cons_of_mem x hy))
                (acc_append_nonneg hacc hfp) l h
          · exact ih acc (fun y hy => hmem y (List.mem_cons_of_mem x hy)) hacc l h
    · rw [pyGet_notObj hx] at h
      cases h

/-- The magnit extraction loop only emits non-negative prices from
non-negative entries. -/
theorem loopMagnit_nonneg : ∀ (xs : List JVal) (acc : List (JVal × ℚ)),
    (∀ x ∈ xs, nonnegJ x = true ∨ notObj x = true) →
    (∀ p ∈ acc, 0 ≤ p.2) →
    ∀ l, loopMagnit xs acc = .ok l → ∀ p ∈ l, 0 ≤ p.2 := by
  intro xs
  induction xs with
  | nil =>
    intro acc _ hacc l h
    rw [loopMagnit] at h
    cases h
    exact hacc
  | cons x rest ih =>
    intro acc hmem hacc l h
    rw [loopMagnit] at h
    rcases hmem x (List.mem_cons_self x rest) with hx | hx
    · cases h1 : pyGet x "name" JVal.null with
      | error e => simp only [h1] at h; cases h
      | ok name =>
        simp only [h1] at h
        cases h2 : pyGet x "price" JVal.null with
        | error e => simp only [h2] at h; cases h
        | ok price =>
          simp only [h2] at h
          have hprice : nonnegJ price = true :=
            pyGet_nonneg hx (by rw [nonnegJ]) h2
          split at h
          · cases h3 : pyDiv price 100 with
            | error e => simp only [h3] at h; cases h
            | ok d =>
              simp only [h3] at h
              cases h6 : pyFloat d with
              | error e => simp only [h6] at h; cases h
              | ok fp =>
                simp only [h6] at h
                have hfp : 0 ≤ fp :=
                  pyFloat_nonneg (pyDiv100_nonneg hprice h3) h6
                exact ih (acc ++ [(name, fp)])
                  (fun y hy => hmem y (List.mem_cons_of_mem x hy))
                  (acc_append_nonneg hacc hfp) l h
          · exact ih acc (fun y hy => hmem y (List.mem_cons_of_mem x hy)) hacc l h
    · rw [pyGet_notObj hx] at h
      cases h

/-- The lenta extraction loop only emits non-negative prices from
non-negative entries. -/
theorem loopLenta_nonneg : ∀ (xs : List JVal) (acc : List (JVal × ℚ)),
    (∀ x ∈ xs, nonnegJ x = true ∨ notObj x = true) →
    (∀ p ∈ acc, 0 ≤ p.2) →
    ∀ l, loopLenta xs acc = .ok l → ∀ p ∈ l, 0 ≤ p.2 := by
  intro xs
  induction xs with
  | nil =>
    intro acc _ hacc l h
    rw [loopLenta] at h
    cases h
    exact hacc
  | cons x rest ih =>
    intro acc hmem hacc l h
    rw [loopLenta] at h
    rcases hmem x (List.mem_cons_self x rest) with hx | hx
    · cases h1 : pyGet x "name" JVal.null with
      | error e => simp only [h1] at h; cases h
      | ok name =>
        simp only [h1] at h
        cases h2 : pyGet x "prices" (.obj []) with
        | error e => simp only [h2] at h; cases h
        | ok prices =>
          simp only [h2] at h
          cases h2b : pyGet prices "price" JVal.null with
          | error e => simp only [h2b] at h; cases h
          | ok price =>
            simp only [h2b] at h
            have hprices : nonnegJ prices = true :=
              pyGet_nonneg hx (by rw [nonnegJ, nonnegKV]) h2
            have hprice : nonnegJ price = true :=
              pyGet_nonneg hprices (by rw [nonnegJ]) h2b
            split at h
            · cases h3 : pyDiv price 100 with
              | error e => simp only [h3] at h; cases h
              | ok d =>
                simp only [h3] at h
                cases h6 : pyFloat d with
                | error e => simp only [h6] at h; cases h
                | ok fp =>
                  simp only [h6] at h
                  have hfp : 0 ≤ fp :=
                    pyFloat_nonneg (pyDiv100_nonneg hprice h3) h6
                  exact ih (acc ++ [(name, fp)])
                    (fun y hy => hmem y (List.mem_cons_of_mem x hy))
                    (acc_append_nonneg hacc hfp) l h
            · exact ih acc (fun y hy => hmem y (List.mem_cons_of_mem x hy)) hacc l h
    · rw [pyGet_notObj hx] at h
      cases h

/-- C4 (counterexample): a magnit entry with a negative numeric price is
emitted with a negative price — no non-negativity normalization exists. -/
theorem claim_C4_negative_price_emitted :
    parse_magnit_prices
      (.obj [("items", .arr [.obj [("name", .str "x"), ("price", .num (-100))]])]) =
      .ok [(.str "x", -1)] ∧ ¬ (0 : ℚ) ≤ -1 := by
  constructor
  · simp only [parse_magnit_prices,
      show pyGet (.obj [("items", .arr [.obj [("name", .str "x"), ("price", .num (-100))]])])
        "items" (.arr []) = .ok (.arr [.obj [("name", .str "x"), ("price", .num (-100))]]) from rfl,
      show pyIter (.arr [.obj [("name", .str "x"), ("price", .num (-100))]]) =
        .ok [.obj [("name", .str "x"), ("price", .num (-100))]] from rfl]
    simp [loopMagnit, pyGet, JVal.lookupJ, JVal.truthy, pyDiv, pyFloat]
  · norm_num

/-- C4 (amended): over a payload all of whose numeric leaves (and numeric
strings) are non-negative, every emitted price is non-negative; but an
entry with a missing price field is not always dropped: `parse_5ka_prices`
defaults it to the string `'0'` and emits the entry with price 0. -/
theorem claim_C4_nonneg_amended :
    (∀ d l, nonnegJ d = true → parse_5ka_prices d = .ok l → ∀ p ∈ l, 0 ≤ p.2) ∧
    (∀ d l, nonnegJ d = true → parse_dixi_prices d = .ok l → ∀ p ∈ l, 0 ≤ p.2) ∧
    (∀ d l, nonnegJ d = true → parse_magnit_prices d = .ok l → ∀ p ∈ l, 0 ≤ p.2) ∧
    (∀ d l, nonnegJ d = true → parse_lenta_prices d = .ok l → ∀ p ∈ l, 0 ≤ p.2) ∧
    parse_5ka_prices (.obj [("products", .arr [.obj [("name", .str "масло")]])]) =
      .ok [(.str "масло", 0)] := by
  refine ⟨?_, ?_, ?_, ?_, ?_⟩
  · intro d l hd h
    rw [parse_5ka_prices] at h
    cases hg : pyGet d "products" (.arr []) with
    | error e => simp only [hg] at h; cases h
    | ok items =>
      simp only [hg] at h
      cases hi : pyIter items with
      | error e => simp only [hi] at h; cases h
      | ok xs =>
        simp only [hi] at h
        have hitems : nonnegJ items = true :=
          pyGet_nonneg hd (by rw [nonnegJ, nonnegL]) hg
        exact loop5ka_nonneg xs [] (pyIter_elems hitems hi)
          (by intro p hp; cases hp) l h
  · intro d l hd h
    cases d with
    | arr xs =>
      cases xs with
      | nil => cases h; intro p hp; cases hp
      | cons d0 rest0 =>
        rw [parse_dixi_prices] at h
        have hd0 : nonnegJ d0 = true := by
          rw [nonnegJ, nonnegL] at hd
          exact (Bool.and_eq_true _ _ ▸ hd).1
        cases hg : pyGet d0 "cards" JVal.null with
        | error e => simp only [hg] at h; cases h
        | ok cards =>
          simp only [hg] at h
          split at h
          · cases hi : pyIter cards with
            | error e => simp only [hi] at h; cases h
            | ok xs2 =>
              simp only [hi] at h
              have hcards : nonnegJ cards = true :=
                pyGet_nonneg hd0 (by rw [nonnegJ]) hg
              exact loopDixi_nonneg xs2 [] (pyIter_elems hcards hi)
                (by intro p hp; cases hp) l h
          · cases h; intro p hp; cases hp
    | null => cases h; intro p hp; cases hp
    | bool b => cases h; intro p hp; cases hp
    | num q => cases h; intro p hp; cases hp
    | str s => cases h; intro p hp; cases hp
    | obj kvs => cases h; intro p hp; cases hp
  · intro d l hd h
    rw [parse_magnit_prices] at h
    cases hg : pyGet d "items" (.arr []) with
    | error e => simp only [hg] at h; cases h
    | ok items =>
      simp only [hg] at h
      cases hi : pyIter items with
      | error e => simp only [hi] at h; cases h
      | ok xs =>
        simp only [hi] at h
        have hitems : nonnegJ items = true :=
          pyGet_nonneg hd (by rw [nonnegJ, nonnegL]) hg
        exact loopMagnit_nonneg xs [] (pyIter_elems hitems hi)
          (by intro p hp; cases hp) l h
  · intro d l hd h
    rw [parse_lenta_prices] at h
    cases hg : pyGet d "items" (.arr []) with
    | error e => simp only [hg] at h; cases h
    | ok items =>
      simp only [hg] at h
      cases hi : pyIter items with
      | error e => simp only [hi] at h; cases h
      | ok xs =>
        simp only [hi] at h
        have hitems : nonnegJ items = true :=
          pyGet_nonneg hd (by rw [nonnegJ, nonnegL]) hg
        exact loopLenta_nonneg xs [] (pyIter_elems hitems hi)
          (by intro p hp; cases hp) l h
  · simp only [parse_5ka_prices,
      show pyGet (.obj [("products", .arr [.obj [("name", .str "масло")]])])
        "products" (.arr []) = .ok (.arr [.obj [("name", .str "масло")]]) from rfl,
      show pyIter (.arr [.obj [("name", .str "масло")]]) =
        .ok [.obj [("name", .str "масло")]] from rfl]
    simp [loop5ka, pyGet, JVal.lookupJ, JVal.truthy, pyFloat, parseFloat,
      parseSign, parseBody, pyStrip, natVal, natValAux]

/-- C4 witness: a magnit payload with a non-negative price, run through the
amended non-negativity statement. -/
theorem claim_C4_nonneg_amended_witness :
    ∀ p ∈ [((JVal.bool true) , (5 : ℚ)/2)], 0 ≤ p.2 :=
  claim_C4_nonneg_amended.2.2.1
    (.obj [("items", .arr [.obj [("name", .bool true), ("price", .num 250)]])])
    [(.bool true, 5/2)]
    (by simp [nonnegJ, nonnegL, nonnegKV])
    (by
      simp only [parse_magnit_prices,
        show pyGet (.obj [("items", .arr [.obj [("name", .bool true), ("price", .num 250)]])])
          "items" (.arr []) = .ok (.arr [.obj [("name", .bool true), ("price", .num 250)]]) from rfl,
        show pyIter (.arr [.obj [("name", .bool true), ("price", .num 250)]]) =
          .ok [.obj [("name", .bool true), ("price", .num 250)]] from rfl]
      simp [loopMagnit, pyGet, JVal.lookupJ, JVal.truthy, pyDiv, pyFloat]
      norm_num)

/-- `iloc[-1]` on a nonempty frame is its last row. -/
theorem iloc_neg_one {t : List HistRow} (h : t ≠ []) :
    pandas_iloc t (-1) = t[t.length - 1]? := by
  have hlen : 0 < t.length := List.length_pos.2 h
  unfold pandas_iloc
  rw [if_pos (show (-1 : ℤ) < 0 by norm_num),
    if_neg (show ¬((-1 : ℤ) + t.length < 0) by omega)]
  congr 1
  omega

/-- `iloc[-2]` on a frame with at least two rows is its second-to-last
row. -/
theorem iloc_neg_two {t : List HistRow} (h : 2 ≤ t.length) :
    pandas_iloc t (-2) = t[t.length - 2]? := by
  unfold pandas_iloc
  rw [if_pos (show (-2 : ℤ) < 0 by norm_num),
    if_neg (show ¬((-2 : ℤ) + t.length < 0) by omega)]
  congr 1
  omega

/-- `iloc[-2]` on a frame with fewer than two rows raises `IndexError`
(modelled as `none`). -/
theorem iloc_neg_two_short {t : List HistRow} (h : t.length < 2) :
    pandas_iloc t (-2) = none := by
  unfold pandas_iloc
  rw [if_pos (show (-2 : ℤ) < 0 by norm_num),
    if_pos (show (-2 : ℤ) + t.length < 0 by omega)]

/-- `iloc[0]` is the first row. -/
theorem iloc_zero (t : List HistRow) : pandas_iloc t 0 = t[0]? := by
  unfold pandas_iloc
  rw [if_neg (show ¬((0 : ℤ) < 0) by norm_num)]
  rfl

/-- The per-item loop of `get_text` succeeds exactly on a nonempty history
table whose second-to-last row (when it exists) has a nonzero average
price: with zero rows the `None` product raises `AttributeError`, and a
zero prior average raises `ZeroDivisionError` in the unguarded percent
computation. -/
theorem getTextItem_ok_iff (t : List HistRow) :
    (∃ r, getTextItem t = .ok r) ↔
      (t ≠ [] ∧ (2 ≤ t.length →
        ∀ r, t[t.length - 2]? = some r → r.middlePrice ≠ 0)) := by
  match t with
  | [] =>
    rw [show getTextItem [] = .error .attributeError from rfl]
    simp
  | [a] =>
    rw [show getTextItem [a] = .ok (productLine a 0, a.middlePrice, 0) from rfl]
    constructor
    · intro _
      refine ⟨by simp, ?_⟩
      intro h2
      simp at h2
    · intro _
      exact ⟨_, rfl⟩
  | a :: b :: rest =>
    have hne : (a :: b :: rest) ≠ [] := by simp
    have hlen : 2 ≤ (a :: b :: rest).length := by simp
    have h1 := iloc_neg_one hne
    have h2 := iloc_neg_two hlen
    obtain ⟨lastr, hlast⟩ : ∃ r, (a :: b :: rest)[(a :: b :: rest).length - 1]? = some r := by
      rw [List.getElem?_eq_getElem (by simp only [List.length_cons]; omega)]
      exact ⟨_, rfl⟩
    obtain ⟨pen, hpen⟩ : ∃ r, (a :: b :: rest)[(a :: b :: rest).length - 2]? = some r := by
      rw [List.getElem?_eq_getElem (by simp only [List.length_cons]; omega)]
      exact ⟨_, rfl⟩
    by_cases hz : pen.middlePrice * (1/100) = 0
    · have hfail : getTextItem (a :: b :: rest) = .error .zeroDivisionError := by
        unfold getTextItem get_product_from_table
        simp only [h1, h2, hlast, hpen, if_pos hz]
      rw [hfail]
      constructor
      · rintro ⟨r, hr⟩
        cases hr
      · rintro ⟨-, hcond⟩
        have hzz : pen.middlePrice = 0 := by
          rcases mul_eq_zero.1 hz with h | h
          · exact h
          · norm_num at h
        exact absurd hzz (hcond hlen pen hpen)
    · have hok : getTextItem (a :: b :: rest) =
          .ok (productLine lastr
                 (pyRound (lastr.middlePrice / (pen.middlePrice * (1/100)) - 100) 1),
               lastr.middlePrice, pen.middlePrice) := by
        unfold getTextItem get_product_from_table
        simp only [h1, h2, hlast, hpen, if_neg hz]
      rw [hok]
      constructor
      · intro _
        refine ⟨hne, ?_⟩
        intro _ r hr
        rw [hpen] at hr
        cases hr
        intro h0
        exact hz (by rw [h0]; ring)
      · intro _
        exact ⟨_, rfl⟩

/-- The fold of `get_text` succeeds exactly when every item loop
succeeds. -/
theorem getTextFold_ok_iff : ∀ (ts : List (List HistRow)) (acc : List String × ℚ × ℚ),
    (∃ v, getTextFold ts acc = .ok v) ↔ ∀ t ∈ ts, ∃ r, getTextItem t = .ok r := by
  intro ts
  induction ts with
  | nil =>
    intro acc
    simp [getTextFold]
  | cons t ts ih =>
    intro acc
    rw [getTextFold]
    cases hg : getTextItem t with
    | error e =>
      constructor
      · rintro ⟨v, hv⟩
        cases hv
      · intro hall
        obtain ⟨r, hr⟩ := hall t (List.mem_cons_self t ts)
        rw [hg] at hr
        cases hr
    | ok r =>
      rw [ih]
      constructor
      · intro hall t' ht'
        rcases List.mem_cons.1 ht' with rfl | ht''
        · exact ⟨r, hg⟩
        · exact hall t' ht''
      · intro hall t' ht'
        exact hall t' (List.mem_cons_of_mem t ht')

/-- `get_text` succeeds exactly when every item loop succeeds. -/
theorem getText_ok_iff (tables : List (List HistRow)) :
    (∃ s, getText tables = .ok s) ↔ ∀ t ∈ tables, ∃ r, getTextItem t = .ok r := by
  rw [getText]
  cases hf : getTextFold tables ([], 0, 0) with
  | error e =>
    constructor
    · rintro ⟨s, hs⟩
      cases hs
    · intro hall
      obtain ⟨v, hv⟩ := (getTextFold_ok_iff tables ([], 0, 0)).2 hall
      rw [hf] at hv
      cases hv
  | ok v =>
    constructor
    · intro _
      exact (getTextFold_ok_iff tables ([], 0, 0)).1 ⟨v, hf⟩
    · intro _
      exact ⟨_, rfl⟩

/-- The per-item loop of `get_text_month` succeeds exactly when the month
window is nonempty and its last row has a nonzero average price. -/
theorem getTextMonthItem_ok_iff (rows : List HistRow) (month year : ℕ) :
    (∃ r, getTextMonthItem rows month year = .ok r) ↔
      ∃ lst, (monthWindow rows month year).getLast? = some lst ∧
        lst.middlePrice ≠ 0 := by
  cases rows with
  | nil =>
    rw [show getTextMonthItem [] month year = .error .keyError from rfl]
    simp [monthWindow]
  | cons r0 rs =>
    rw [getTextMonthItem]
    rw [show ((r0 :: rs).get? 0 : Option HistRow) = some r0 from rfl]
    cases hfl : monthWindow (r0 :: rs) month year with
    | nil =>
      rw [show pandas_iloc [] 0 = none from rfl]
      simp
    | cons f fs =>
      have h0 : pandas_iloc (f :: fs) 0 = some f := by
        rw [iloc_zero, List.getElem?_cons_zero]
      obtain ⟨lst, hlst⟩ : ∃ x, (f :: fs)[(f :: fs).length - 1]? = some x := by
        rw [List.getElem?_eq_getElem (by simp)]
        exact ⟨_, rfl⟩
      have hL : pandas_iloc (f :: fs) (-1) = some lst := by
        rw [iloc_neg_one (by simp), hlst]
      have hlast : (f :: fs).getLast? = some lst := by
        rw [List.getLast?_eq_getElem?, hlst]
      simp only [h0, hL]
      by_cases hz : lst.middlePrice * (1/100) = 0
      · simp only [if_pos hz]
        have hzz : lst.middlePrice = 0 := by
          rcases mul_eq_zero.1 hz with h | h
          · exact h
          · norm_num at h
        constructor
        · rintro ⟨r, hr⟩
          cases hr
        · rintro ⟨l2, hl2, hne0⟩
          rw [hlast] at hl2
          cases hl2
          exact absurd hzz hne0
      · simp only [if_neg hz]
        constructor
        · intro _
          exact ⟨lst, hlast, fun h0' => hz (by rw [h0']; ring)⟩
        · intro _
          exact ⟨_, rfl⟩

/-- C1 (amended): `get_text` returns a report string exactly when every
history table is nonempty with a nonzero second-to-last average (so the
one-row case is handled, reporting 0%), and the `get_text_month` item loop
succeeds exactly when the month window is nonempty with a nonzero last
average; outside these conditions the report builders raise
(`AttributeError` / `IndexError` / `ZeroDivisionError`) — only the
basket-total percent is guarded. -/
theorem claim_C1_report_guards :
    (∀ tables, (∃ s, getText tables = .ok s) ↔
      ∀ t ∈ tables, t ≠ [] ∧ (2 ≤ t.length →
        ∀ r, t[t.length - 2]? = some r → r.middlePrice ≠ 0)) ∧
    (∀ rows month year, (∃ r, getTextMonthItem rows month year = .ok r) ↔
      ∃ lst, (monthWindow rows month year).getLast? = some lst ∧
        lst.middlePrice ≠ 0) := by
  constructor
  · intro tables
    rw [getText_ok_iff]
    constructor
    · intro hall t ht
      exact (getTextItem_ok_iff t).1 (hall t ht)
    · intro hall t ht
      exact (getTextItem_ok_iff t).2 (hall t ht)
  · intro rows month year
    exact getTextMonthItem_ok_iff rows month year

/-- C1 (counterexample): an empty history table makes `get_text` raise
(`get_product_from_table` returns `None` and the f-string accesses
`new_product.name`), so the report builders do not handle the no-rows case
without raising. -/
theorem claim_C1_empty_table_raises :
    getText [[]] = .error .attributeError := rfl

/-- C1 witness: a single-row table is handled without raising. -/
theorem claim_C1_report_guards_witness :
    ∃ s, getText [[⟨⟨1, 1, 2026⟩, "молоко", 50, 70⟩]] = .ok s :=
  (claim_C1_report_guards.1 [[⟨⟨1, 1, 2026⟩, "молоко", 50, 70⟩]]).2
    (by
      intro t ht
      rcases List.mem_singleton.1 ht with rfl
      exact ⟨by simp, by intro h2; simp at h2⟩)

/-- Assignment into a dict makes the key hold the assigned value. -/
theorem lookupP_dictSet_self (d : List (String × PVal)) (k : String) (v : PVal) :
    lookupP (dictSet d k v) k = some v := by
  induction d with
  | nil => simp [dictSet, lookupP]
  | cons kv rest ih =>
    rw [dictSet]
    by_cases hk : kv.1 = k
    · rw [if_pos hk, lookupP, if_pos rfl]
    · rw [if_neg hk, lookupP, if_neg hk]
      exact ih

/-- Assignment into a dict leaves other keys unchanged. -/
theorem lookupP_dictSet_ne (d : List (String × PVal)) {k' k : String} (v : PVal)
    (h : k' ≠ k) : lookupP (dictSet d k' v) k = lookupP d k := by
  induction d with
  | nil =>
    simp [dictSet, lookupP, h]
  | cons kv rest ih =>
    rw [dictSet]
    by_cases hk : kv.1 = k'
    · rw [if_pos hk, lookupP, lookupP,
        if_neg (show ¬(k', v).1 = k from h),
        if_neg (show ¬kv.1 = k from fun hh => h (by rw [← hk]; exact hh))]
    · rw [if_neg hk, lookupP, lookupP]
      by_cases hk2 : kv.1 = k
      · rw [if_pos hk2, if_pos hk2]
      · rw [if_neg hk2, if_neg hk2]
        exact ih

/-- After `update_params` with a single-key dict, the stored parameters
hold that key-value pair inside the dict at the updated key, whatever was
stored before. -/
theorem update_params_single (p : List (String × PVal)) (k sub : String) (v : PVal) :
    (match lookupP (update_params p k [(sub, v)]) k with
     | some (.dict d2) => lookupP d2 sub
     | _ => none) = some v := by
  unfold update_params
  cases hl : lookupP p k with
  | none =>
    rw [lookupP_dictSet_self]
    simp [dictMerge, lookupP]
  | some w =>
    cases w with
    | dict d =>
      rw [lookupP_dictSet_self]
      simp only [dictMerge, List.foldl_cons, List.foldl_nil]
      rw [lookupP_dictSet_self]
    | str s => rw [lookupP_dictSet_self]; simp [lookupP]

/-- A successful `execute` leaves the market state it was given. -/
theorem doRequest_ok {m : MarketS} {resp : String → RResult} {b : RespBody}
    {m' : MarketS} (h : doRequest m resp = .ok (b, m')) : m' = m := by
  unfold doRequest at h
  cases hr : resp m.name with
  | netError => rw [hr] at h; cases h
  | httpResp s b2 =>
    rw [hr] at h
    have h2 : (if s = 200 then (Except.ok (b2, m) : Except MErr (RespBody × MarketS))
        else .error .requestError) = .ok (b, m') := h
    by_cases h200 : s = 200
    · rw [if_pos h200] at h2
      cases h2
      rfl
    · rw [if_neg h200] at h2
      cases h2

/-- Under the shape condition, `Market.search` reaches the network call
with some market state carrying the same retailer name. -/
theorem marketSearch_doReq (m : MarketS) (resp : String → RResult) (q : String)
    (hok : searchOK m = true) :
    ∃ m2, marketSearch m resp q = doRequest m2 resp ∧ m2.name = m.name := by
  rw [searchOK, Bool.and_eq_true] at hok
  obtain ⟨hhd, hdx⟩ := hok
  cases hsp : m.search_param with
  | nil => rw [hsp] at hhd; simp [headDict] at hhd
  | cons kv rest =>
    obtain ⟨k, v⟩ := kv
    cases v with
    | str s => rw [hsp] at hhd; simp [headDict] at hhd
    | dict d0 =>
      simp only [marketSearch, hsp]
      by_cases hd : m.name = "dixi"
      · rw [if_pos hd] at hdx ⊢
        rw [paramsDict] at hdx
        cases hq : lookupP m.qparams "params" with
        | none => rw [hq] at hdx; cases hdx
        | some w =>
          cases w with
          | str s2 => rw [hq] at hdx; cases hdx
          | dict d2 => exact ⟨_, rfl, rfl⟩
      · rw [if_neg hd]
        exact ⟨_, rfl, rfl⟩

/-- With the shape condition, a transport failure surfaces as
`RequestError`. -/
theorem marketSearch_net {m : MarketS} (resp : String → RResult) (q : String)
    (hok : searchOK m = true) (hr : resp m.name = .netError) :
    marketSearch m resp q = .error .requestError := by
  obtain ⟨m2, hps, hname⟩ := marketSearch_doReq m resp q hok
  rw [hps]
  unfold doRequest
  simp only [hname, hr]

/-- With the shape condition, an HTTP response either succeeds (status
200) or surfaces as `RequestError`. -/
theorem marketSearch_resp {m : MarketS} (resp : String → RResult) (q : String)
    {s : ℕ} {b : RespBody} (hok : searchOK m = true)
    (hr : resp m.name = .httpResp s b) :
    (s = 200 → ∃ m', marketSearch m resp q = .ok (b, m')) ∧
    (s ≠ 200 → marketSearch m resp q = .error .requestError) := by
  obtain ⟨m2, hps, hname⟩ := marketSearch_doReq m resp q hok
  rw [hps]
  unfold doRequest
  simp only [hname, hr]
  constructor
  · intro h200
    rw [if_pos h200]
    exact ⟨_, rfl⟩
  · intro h200
    rw [if_neg h200]

/-- The retailer loop writes exactly the payloads of retailers whose
response is a 200 JSON body, and raises nothing, provided every market
satisfies the shape condition. -/
theorem runMarkets_ok (resp : String → RResult) (q : String) :
    ∀ ms : List MarketS, (∀ m ∈ ms, searchOK m = true) →
      runMarkets resp q ms = (ms.filterMap fun m => goodWrite resp m.name, none) := by
  intro ms
  induction ms with
  | nil => intro _; rfl
  | cons m ms ih =>
    intro hall
    have hok := hall m (List.mem_cons_self m ms)
    have htail := fun m' hm' => hall m' (List.mem_cons_of_mem m hm')
    rw [runMarkets]
    cases hr : resp m.name with
    | netError =>
      simp only [marketSearch_net resp q hok hr]
      rw [if_pos (show isMarketError .requestError = true from rfl)]
      rw [ih htail]
      rw [@List.filterMap_cons_none MarketS (String × JVal)
        (fun m2 => goodWrite resp m2.name) m ms
        (by show goodWrite resp m.name = none
            rw [goodWrite, hr])]
    | httpResp s b =>
      by_cases h200 : s = 200
      · obtain ⟨m', hm'⟩ := (marketSearch_resp resp q hok hr).1 h200
        simp only [hm']
        cases b with
        | jsonB j =>
          rw [ih htail]
          rw [@List.filterMap_cons_some MarketS (String × JVal)
            (fun m2 => goodWrite resp m2.name) m ms (m.name, j)
            (by show goodWrite resp m.name = some (m.name, j)
                rw [goodWrite, hr, h200]
                simp)]
        | textB s2 =>
          rw [ih htail]
          rw [@List.filterMap_cons_none MarketS (String × JVal)
            (fun m2 => goodWrite resp m2.name) m ms
            (by show goodWrite resp m.name = none
                rw [goodWrite, hr])]
      · simp only [(marketSearch_resp resp q hok hr).2 h200]
        rw [if_pos (show isMarketError .requestError = true from rfl)]
        rw [ih htail]
        cases b with
        | jsonB j =>
          rw [@List.filterMap_cons_none MarketS (String × JVal)
            (fun m2 => goodWrite resp m2.name) m ms
            (by show goodWrite resp m.name = none
                rw [goodWrite, hr]
                simp [h200])]
        | textB s2 =>
          rw [@List.filterMap_cons_none MarketS (String × JVal)
            (fun m2 => goodWrite resp m2.name) m ms
            (by show goodWrite resp m.name = none
                rw [goodWrite, hr])]

/-- A constructed market carries its retailer name and template. -/
theorem createMarket_fields {c : ConfigS} {n : String} {m : MarketS}
    (h : createMarket c n = .ok m) :
    m.name = n ∧ m.search_param = get_search_param n := by
  unfold createMarket at h
  cases h1 : load_config c (n ++ ".json") with
  | error e => rw [h1] at h; cases h
  | ok cfg =>
    rw [h1] at h
    cases h2 : load_config c "proxies.json" with
    | error e => rw [h2] at h; cases h
    | ok proxies =>
      rw [h2] at h
      cases h
      exact ⟨rfl, rfl⟩

/-- Every branch of `_get_search_param` returns a dict-headed template. -/
theorem headDict_get_search_param (n : String) :
    headDict (get_search_param n) = true := by
  unfold get_search_param
  split_ifs <;> rfl

/-- If some retailer's market fails to construct, the eager `markets` list
literal raises. -/
theorem buildAll_error (c : ConfigS) :
    ∀ l : List String,
      (l.all fun n => match createMarket c n with
        | .ok _ => true
        | .error _ => false) = false →
      ∃ e, buildAll c l = .error e := by
  intro l
  induction l with
  | nil => intro h; cases h
  | cons n ns ih =>
    intro h
    rw [List.all_cons, Bool.and_eq_false_iff] at h
    cases hc : createMarket c n with
    | error e => exact ⟨e, by rw [buildAll, hc]⟩
    | ok m =>
      rcases h with h | h
      · rw [hc] at h; cases h
      · obtain ⟨e, he⟩ := ih h
        exact ⟨e, by rw [buildAll, hc, he]⟩

/-- C5 (amended): a configuration failure for any retailer in the roster
aborts the whole `get_query` run during the eager construction of the
`markets` list — nothing is queried and no payload file is written, and
the `ConfigError` propagates to the caller. -/
theorem claim_C5_config_error_aborts_run (c : ConfigS) (resp : String → RResult)
    (q : String) (h : marketsOk c = false) :
    (get_query c resp q).1 = [] ∧ (get_query c resp q).2.isSome = true := by
  rw [marketsOk] at h
  obtain ⟨e, he⟩ := buildAll_error c marketRoster h
  rw [get_query, he]
  exact ⟨rfl, rfl⟩

/-- C5 (counterexample): with the magnit configuration file missing and
everything else intact, `get_query` writes no payload file at all and
raises — the other three retailers, although fully configured, are never
queried, while the same run with an intact configuration writes all four
files. -/
theorem claim_C5_other_retailers_not_queried :
    get_query cfgBadC5 respOK5 "хлеб" = ([], some .configError) ∧
    get_query cfgGoodC5 respOK5 "хлеб" =
      ([("5ka", .obj []), ("magnit", .obj []), ("lenta", .obj []), ("dixi", .obj [])],
       none) :=
  ⟨rfl, rfl⟩

/-- C5 witness: the amended statement applied to the broken
configuration. -/
theorem claim_C5_config_error_aborts_run_witness :
    (get_query cfgBadC5 respOK5 "сахар").1 = [] ∧
    (get_query cfgBadC5 respOK5 "сахар").2.isSome = true :=
  claim_C5_config_error_aborts_run cfgBadC5 respOK5 "сахар" rfl

/-- C6: with all four retailer configurations loading (and dixi's holding
the `params` dict its search branch mutates), one `get_query` run writes
exactly the payloads of the retailers whose response is a 200 JSON body
and raises nothing: a transport failure, a non-200 status or a non-JSON
body at one retailer is caught and skipped and never prevents the other
retailers from being queried and written. -/
theorem claim_C6_failures_isolated (c : ConfigS) (resp : String → RResult)
    (q : String) (h1 : marketsOk c = true) (h2 : dixiOk c = true) :
    get_query c resp q = (expectedWrites resp, none) := by
  rw [marketsOk, marketRoster] at h1
  simp only [List.all_cons, List.all_nil, Bool.and_eq_true] at h1
  obtain ⟨e1, e2, e3, e4, -⟩ := h1
  have hm1 : ∃ m, createMarket c "5ka" = .ok m := by
    cases hc : createMarket c "5ka" with
    | error e => rw [hc] at e1; cases e1
    | ok m => exact ⟨m, rfl⟩
  have hm2 : ∃ m, createMarket c "magnit" = .ok m := by
    cases hc : createMarket c "magnit" with
    | error e => rw [hc] at e2; cases e2
    | ok m => exact ⟨m, rfl⟩
  have hm3 : ∃ m, createMarket c "lenta" = .ok m := by
    cases hc : createMarket c "lenta" with
    | error e => rw [hc] at e3; cases e3
    | ok m => exact ⟨m, rfl⟩
  have hm4 : ∃ m, createMarket c "dixi" = .ok m := by
    cases hc : createMarket c "dixi" with
    | error e => rw [hc] at e4; cases e4
    | ok m => exact ⟨m, rfl⟩
  obtain ⟨m1, hc1⟩ := hm1
  obtain ⟨m2, hc2⟩ := hm2
  obtain ⟨m3, hc3⟩ := hm3
  obtain ⟨m4, hc4⟩ := hm4
  obtain ⟨hn1, hs1⟩ := createMarket_fields hc1
  obtain ⟨hn2, hs2⟩ := createMarket_fields hc2
  obtain ⟨hn3, hs3⟩ := createMarket_fields hc3
  obtain ⟨hn4, hs4⟩ := createMarket_fields hc4
  have hok1 : searchOK m1 = true := by
    rw [searchOK, hn1, hs1]
    rfl
  have hok2 : searchOK m2 = true := by
    rw [searchOK, hn2, hs2]
    rfl
  have hok3 : searchOK m3 = true := by
    rw [searchOK, hn3, hs3]
    rfl
  have hok4 : searchOK m4 = true := by
    rw [searchOK, hn4, hs4]
    rw [dixiOk] at h2
    simp only [hc4] at h2
    rw [show headDict (get_search_param "dixi") = true from rfl, Bool.true_and,
      if_pos rfl, paramsDict]
    cases hq : lookupP m4.qparams "params" with
    | none => rw [hq] at h2; exact h2
    | some w =>
      cases w with
      | str s2 => rw [hq] at h2; exact h2
      | dict d2 => rfl
  have hb : buildAll c marketRoster = .ok [m1, m2, m3, m4] := by
    rw [marketRoster]
    rw [buildAll, hc1, buildAll, hc2, buildAll, hc3, buildAll, hc4, buildAll]
  have hallok : ∀ m ∈ [m1, m2, m3, m4], searchOK m = true := by
    intro m hm
    rcases List.mem_cons.1 hm with rfl | hm
    · exact hok1
    rcases List.mem_cons.1 hm with rfl | hm
    · exact hok2
    rcases List.mem_cons.1 hm with rfl | hm
    · exact hok3
    rcases List.mem_cons.1 hm with rfl | hm
    · exact hok4
    cases hm
  rw [get_query]
  simp only [hb]
  rw [runMarkets_ok resp q [m1, m2, m3, m4] hallok]
  rw [expectedWrites, marketRoster]
  simp only [List.filterMap_cons, List.filterMap_nil, hn1, hn2, hn3, hn4]

/-- C6 witness: a run where magnit fails at transport level and lenta
returns non-JSON text still writes the 5ka and dixi payloads. -/
theorem claim_C6_failures_isolated_witness :
    marketsOk cfg6 = true ∧ dixiOk cfg6 = true ∧
    get_query cfg6 resp6 "яйцо" = (expectedWrites resp6, none) ∧
    expectedWrites resp6 = [("5ka", .obj [("items", .arr [])]),
      ("dixi", .obj [("items", .arr [])])] :=
  ⟨rfl, rfl, claim_C6_failures_isolated cfg6 resp6 "яйцо" rfl rfl, rfl⟩

/-- Under the roster shape condition, a successful search stores the query
in the retailer's slot, keeps the template unchanged, and preserves the
shape condition. -/
theorem marketSearch_ok_slot (n : String) (p : List (String × PVal)) (q : String)
    (resp : String → RResult) (body : RespBody) (m' : MarketS)
    (hn : goodName n p)
    (h : marketSearch ⟨n, p, get_search_param n⟩ resp q = .ok (body, m')) :
    m'.name = n ∧ m'.search_param = get_search_param n ∧
    slotLookup n m'.qparams = some (.str q) ∧ goodName n m'.qparams := by
  rcases hn with rfl | rfl | rfl | ⟨rfl, d, hd⟩
  · have h1 : doRequest ⟨"5ka", update_params p "params" [("q", .str q)],
        get_search_param "5ka"⟩ resp = .ok (body, m') := h
    have hm := doRequest_ok h1
    subst hm
    exact ⟨rfl, rfl, update_params_single p "params" "q" (.str q), Or.inl rfl⟩
  · have h1 : doRequest ⟨"magnit", update_params p "json" [("term", .str q)],
        get_search_param "magnit"⟩ resp = .ok (body, m') := h
    have hm := doRequest_ok h1
    subst hm
    exact ⟨rfl, rfl, update_params_single p "json" "term" (.str q),
      Or.inr (Or.inl rfl)⟩
  · have h1 : doRequest ⟨"lenta", update_params p "json" [("query", .str q)],
        get_search_param "lenta"⟩ resp = .ok (body, m') := h
    have hm := doRequest_ok h1
    subst hm
    exact ⟨rfl, rfl, update_params_single p "json" "query" (.str q),
      Or.inr (Or.inr (Or.inl rfl))⟩
  · have h1 : (match lookupP p "params" with
        | some (.dict d0) =>
          doRequest ⟨"dixi", dictSet p "params" (.dict (dictMerge d0 (dixiUpdate q))),
            get_search_param "dixi"⟩ resp
        | some _ => (.error .pyAttrError : Except MErr (RespBody × MarketS))
        | none => .error .pyKeyError) = .ok (body, m') := h
    rw [hd] at h1
    have h2 : doRequest ⟨"dixi", dictSet p "params" (.dict (dictMerge d (dixiUpdate q))),
        get_search_param "dixi"⟩ resp = .ok (body, m') := h1
    have hm := doRequest_ok h2
    subst hm
    refine ⟨rfl, rfl, ?_, Or.inr (Or.inr (Or.inr ⟨rfl, dictMerge d (dixiUpdate q),
      lookupP_dictSet_self p "params" _⟩))⟩
    show (match lookupP (dictSet p "params" (.dict (dictMerge d (dixiUpdate q)))) "params" with
      | some (.dict d2) => lookupP d2 "searchQuery"
      | _ => none) = some (.str q)
    rw [lookupP_dictSet_self]
    show lookupP
      (dictSet
        (dictSet
          (dictSet
            (dictSet (dictSet (dictSet (dictSet d "block" (.str "product-list"))
              "sid" (.str "0")) "perPage" (.str "30")) "page" (.str "1"))
            "searchQuery" (.str q))
          "getFullData" (.str ""))
        "gl_filter" (.str "")) "searchQuery" = some (.str q)
    rw [lookupP_dictSet_ne _ _ (by decide), lookupP_dictSet_ne _ _ (by decide),
      lookupP_dictSet_self]

/-- C8 (amended): `Market.search` does mutate the stored query parameters
(`execute` merges the search arguments into `_params`, and the dixi branch
updates `_params['params']` in place), but for the four retailers
`get_query` uses it leaves `search_param` (and the name) unchanged and
always sends the given query in the retailer's query slot — so repeated
searches with different queries still each send their own query. -/
theorem claim_C8_search_state (n : String) (p : List (String × PVal)) (q : String)
    (resp : String → RResult) (body : RespBody) (m' : MarketS)
    (hn : goodName n p)
    (h : marketSearch ⟨n, p, get_search_param n⟩ resp q = .ok (body, m')) :
    m'.search_param = get_search_param n ∧
    slotLookup n m'.qparams = some (.str q) ∧
    ∀ q2 resp2 body2 m2, marketSearch m' resp2 q2 = .ok (body2, m2) →
      slotLookup n m2.qparams = some (.str q2) := by
  obtain ⟨hname, hsp, hslot, hgood⟩ := marketSearch_ok_slot n p q resp body m' hn h
  refine ⟨hsp, hslot, ?_⟩
  intro q2 resp2 body2 m2 h2
  obtain ⟨nm, pm, sm⟩ := m'
  have hname2 : n = nm := (show nm = n from hname).symm
  subst hname2
  have hsp2 : sm = get_search_param n := hsp
  subst hsp2
  exact (marketSearch_ok_slot n pm q2 resp2 body2 m2 hgood h2).2.2.1

/-- C8 (counterexample): a magnit search merges the search parameters into
the query object's stored `_params`, so the stored request parameters
differ after the call — `Market.search` is not free of state effects. -/
theorem claim_C8_search_mutates_params :
    marketSearch m8 resp8 "молоко" =
      .ok (.jsonB (.obj []),
        ⟨"magnit", [("url", .str "u"), ("json", .dict [("term", .str "молоко")])],
          get_search_param "magnit"⟩) ∧
    [("url", PVal.str "u"), ("json", PVal.dict [("term", PVal.str "молоко")])] ≠
      m8.qparams := by
  refine ⟨rfl, ?_⟩
  intro hcon
  have hlen := congrArg List.length hcon
  simp [m8] at hlen

/-- C8 witness: the amended statement at a concrete magnit market. -/
theorem claim_C8_search_state_witness :
    (⟨"magnit", [("url", PVal.str "u"),
        ("json", PVal.dict [("term", PVal.str "молоко")])],
      get_search_param "magnit"⟩ : MarketS).search_param = get_search_param "magnit" ∧
    slotLookup "magnit"
      (⟨"magnit", [("url", PVal.str "u"),
          ("json", PVal.dict [("term", PVal.str "молоко")])],
        get_search_param "magnit"⟩ : MarketS).qparams = some (.str "молоко") ∧
    ∀ q2 resp2 body2 m2,
      marketSearch
        ⟨"magnit", [("url", PVal.str "u"),
            ("json", PVal.dict [("term", PVal.str "молоко")])],
          get_search_param "magnit"⟩ resp2 q2 = .ok (body2, m2) →
      slotLookup "magnit" m2.qparams = some (.str q2) :=
  claim_C8_search_state "magnit" [("url", .str "u")] "молоко" resp8
    (.jsonB (.obj [])) _ (Or.inr (Or.inl rfl)) rfl

end FStock
